import Mathlib

/-!
Verification of the flake8-logging AST visitor (`src/flake8_logging/__init__.py`)
against its natural-language specification.

The Python plugin walks a parsed syntax tree once, tracking import aliases, a
lexical stack and a best-effort logger binding, and appends positioned
diagnostics (line, column, message).  Below, the relevant fragment of the
Python `ast` node language is embedded as inductive types, the two cached
regular expressions are embedded as explicit left-to-right scanners with the
exact greedy/lazy semantics the patterns have, and the visitor is embedded as
a state-passing traversal.  Machine evaluation matters for witnesses, so the
traversal carries an explicit fuel argument (structural recursion on `Nat`);
every recursive call both consumes one unit of fuel and descends to a strict
sub-component, so the `sizeOf`-based fuel supplied by the entry point never
runs out.
-/

namespace FlakeLogging

/-- Source position: `lineno` and `col_offset` of a Python AST node. -/
structure Pos where
  line : Nat
  col : Nat
deriving DecidableEq, Repr

/-- Python constant values, as held by `ast.Constant.value`.  Only the
distinctions the checks observe are kept: `str` payloads are real, other
kinds matter only for `isinstance(..., str)` tests and truthiness. -/
inductive ConstVal where
  | str (s : String)
  | bytes (len : Nat)
  | bool (b : Bool)
  | int (n : Int)
  | none
  | ellipsis
deriving DecidableEq, Repr

/-- Python truthiness of a constant (`if exc_info.value.value:`). -/
def ConstVal.truthy : ConstVal → Bool
  | .str s => s ≠ ""
  | .bytes n => n ≠ 0
  | .bool b => b
  | .int n => n ≠ 0
  | .none => false
  | .ellipsis => true

/-- Binary operators; only `Add` and `Mod` are distinguished by the checks. -/
inductive Op where
  | add
  | mod
  | other
deriving DecidableEq, Repr

mutual
/-- Python expressions (the fragment the visitor inspects or recurses into).
`dict` keeps `ast.Dict`'s parallel `keys`/`values` lists, with `none` keys
for `**` unpacking. -/
inductive Expr where
  | constant (pos : Pos) (v : ConstVal)
  | name (pos : Pos) (id : String)
  | attribute (pos : Pos) (value : Expr) (attr : String)
  | call (pos : Pos) (func : Expr) (args : List Expr) (keywords : List Keyword)
  | starred (pos : Pos) (value : Expr)
  | binOp (pos : Pos) (left : Expr) (op : Op) (right : Expr)
  | joinedStr (pos : Pos) (values : List Expr)
  | dict (pos : Pos) (keys : List (Option Expr)) (values : List Expr)

/-- Python `ast.keyword`: `arg` is `none` for `**kwargs`. -/
inductive Keyword where
  | mk (pos : Pos) (arg : Option String) (value : Expr)
end

def Keyword.pos : Keyword → Pos
  | .mk p _ _ => p

def Keyword.arg : Keyword → Option String
  | .mk _ a _ => a

def Keyword.value : Keyword → Expr
  | .mk _ _ v => v

/-- Python `ast.alias` as used in import statements. -/
structure ImportAlias where
  pos : Pos
  name : String
  asname : Option String

mutual
/-- Python statements (the fragment the visitor inspects or recurses into).
Field order of the children mirrors `ast`'s `_fields` order, which fixes the
traversal order of `generic_visit`. -/
inductive Stmt where
  | importStmt (pos : Pos) (names : List ImportAlias)
  | importFrom (pos : Pos) (module : Option String) (names : List ImportAlias)
  | assign (pos : Pos) (targets : List Expr) (value : Expr)
  | exprStmt (pos : Pos) (value : Expr)
  | functionDef (pos : Pos) (name : String) (body : List Stmt)
  | asyncFunctionDef (pos : Pos) (name : String) (body : List Stmt)
  | classDef (pos : Pos) (name : String) (body : List Stmt)
  | tryStmt (pos : Pos) (body : List Stmt) (handlers : List Handler)
      (orelse : List Stmt) (finalbody : List Stmt)

/-- Python `ast.ExceptHandler`: `name` is the `as exc` binding (an identifier, not a
node), `type_` the matched exception expression. -/
inductive Handler where
  | mk (pos : Pos) (type_ : Option Expr) (name : Option String) (body : List Stmt)
end

def Handler.name : Handler → Option String
  | .mk _ _ n _ => n

def Handler.body : Handler → List Stmt
  | .mk _ _ _ b => b

/-- A parsed module: `ast.Module`. -/
structure Module where
  body : List Stmt

/-! ## Fixed name sets (`logger_methods`, `logrecord_attributes`, `LOG002_names`) -/

def logger_methods : List String :=
  ["debug", "info", "warn", "warning", "error", "critical", "log", "exception"]

def logrecord_attributes : List String :=
  ["asctime", "args", "created", "exc_info", "exc_text", "filename",
   "funcName", "levelname", "levelno", "lineno", "message", "module",
   "msecs", "msg", "name", "pathname", "process", "processName",
   "relativeCreated", "stack_info", "taskName", "thread", "threadName"]

def LOG002_names : List String := ["__cached__", "__file__"]

/-! ## Diagnostic messages -/

/-- Python `repr` of a plain string key, as interpolated into LOG003/LOG013
messages (single-quote form; the flagged key names contain no quotes or
escapes, where the forms coincide). -/
def pyRepr (s : String) : String := "'" ++ s ++ "'"

def LOG001 : String := "LOG001 use logging.getLogger() to instantiate loggers"
def LOG002 : String := "LOG002 use __name__ with getLogger()"
def LOG003msg (key : String) : String :=
  "LOG003 extra key " ++ (pyRepr key ++ " clashes with LogRecord attribute")
def LOG004 : String := "LOG004 avoid exception() outside of exception handlers"
def LOG005 : String := "LOG005 use exception() within an exception handler"
def LOG006 : String := "LOG006 redundant exc_info argument for exception()"
def LOG007 : String := "LOG007 use error() instead of exception() with exc_info=False"
def LOG008 : String := "LOG008 warn() is deprecated, use warning() instead"
def LOG009 : String := "LOG009 WARN is undocumented, use WARNING instead"
def LOG010 : String := "LOG010 exception() does not take an exception"
def LOG011 : String := "LOG011 avoid pre-formatting log messages"
def LOG012msg (n : Nat) (ns : String) (m : Int) (ms : String) : String :=
  "LOG012 formatting error: " ++ (toString n ++ (" % placeholder" ++ (ns ++
    (" but " ++ (toString m ++ (" argument" ++ ms))))))
def LOG013msg (mistake : String) (ns : String) (keys : String) : String :=
  "LOG013 formatting error: " ++ (mistake ++ (" key" ++ (ns ++ (": " ++ keys))))
def LOG014 : String := "LOG014 avoid exc_info=True outside of exception handlers"
def LOG015 : String := "LOG015 avoid logging calls on the root logger"

/-- A diagnostic: `(lineno, col_offset, message)`. -/
def Err : Type := Nat × Nat × String

instance : DecidableEq Err := by
  unfold Err
  infer_instance

def mkErr (p : Pos) (msg : String) : Err := (p.line, p.col, msg)

/-! ## The two placeholder regular expressions

`modpos_placeholder_re` and `modnamed_placeholder_re` are embedded as
explicit scanners over the character list.  All quantified sub-patterns are
greedy over pairwise-disjoint character classes followed by a conversion
character outside those classes, so greedy matching without backtracking is
exact; the lazy `(?P<name>.*?)` group of the named pattern is implemented by
trying each closing parenthesis from the left, exactly as the engine
backtracks. -/

def isFlagChar (c : Char) : Bool :=
  c = '-' || c = '#' || c = '0' || c = ' ' || c = '+'

def isLenMod (c : Char) : Bool := c = 'h' || c = 'l' || c = 'L'

def isConvChar (c : Char) : Bool :=
  c = 'a' || c = 'c' || c = 'd' || c = 'e' || c = 'E' || c = 'f' || c = 'F' ||
  c = 'g' || c = 'G' || c = 'i' || c = 'o' || c = 'r' || c = 's' || c = 'u' ||
  c = 'x' || c = 'X'

/-- One match of `modpos_placeholder_re`: whether it is the `%%` escape, and
whether the minimum-width / precision groups matched their `*` forms. -/
structure PosMatch where
  isEscape : Bool
  starWidth : Bool
  starPrec : Bool
deriving DecidableEq, Repr

/-- Try to match the tail of `modpos_placeholder_re` (everything after the
leading `%`) at the head of `cs`; returns the match data and the rest of the
input. -/
def matchPercentTail (cs : List Char) : Option (PosMatch × List Char) :=
  match cs with
  | '%' :: rest => some (⟨true, false, false⟩, rest)
  | _ =>
    let cs1 := cs.dropWhile isFlagChar
    let (sw, cs2) :=
      match cs1 with
      | '*' :: r => (true, r)
      | _ => (false, cs1.dropWhile Char.isDigit)
    let (sp, cs3) :=
      match cs2 with
      | '.' :: '*' :: r => (true, r)
      | '.' :: c :: r =>
        if c.isDigit then (false, (c :: r).dropWhile Char.isDigit)
        else (false, cs2)
      | _ => (false, cs2)
    let cs4 :=
      match cs3 with
      | c :: r => if isLenMod c then r else cs3
      | [] => cs3
    match cs4 with
    | c :: r => if isConvChar c then some (⟨false, sw, sp⟩, r) else none
    | [] => none

/-- Python `finditer` loop for the positional pattern: scan left to right, skipping
each successful match (matches do not overlap).  Fuel is consumed once per
step and at least one character is consumed per step, so fuel equal to the
input length suffices. -/
def modposScan : Nat → List Char → List PosMatch
  | 0, _ => []
  | _ + 1, [] => []
  | fuel + 1, c :: rest =>
    if c = '%' then
      match matchPercentTail rest with
      | some (m, rest2) => m :: modposScan fuel rest2
      | Option.none => modposScan fuel rest
    else
      modposScan fuel rest

def modposMatches (s : String) : List PosMatch :=
  modposScan s.data.length s.data

/-- Python `modpos_count` of `_check_msg_and_args`: each non-escape match counts 1,
plus 1 for a `*` minimum width and 1 for a `.*` precision. -/
def modposCount (s : String) : Nat :=
  (modposMatches s).foldl
    (fun acc m =>
      if m.isEscape then acc
      else acc + 1 + (if m.starWidth then 1 else 0) +
        (if m.starPrec then 1 else 0))
    0

/-- Match the suffix of `modnamed_placeholder_re` after the closing `)`:
optional flags, optional digit width, optional `.digits` precision, optional
length modifier, then a conversion character. -/
def matchNamedSuffix (cs : List Char) : Option (List Char) :=
  let cs1 := cs.dropWhile isFlagChar
  let cs2 := cs1.dropWhile Char.isDigit
  let cs3 :=
    match cs2 with
    | '.' :: c :: r =>
      if c.isDigit then (c :: r).dropWhile Char.isDigit else cs2
    | _ => cs2
  let cs4 :=
    match cs3 with
    | c :: r => if isLenMod c then r else cs3
    | [] => cs3
  match cs4 with
  | c :: r => if isConvChar c then some r else none
  | [] => none

/-- The lazy `(?P<name>.*?)\)` group: at each candidate `)` from the left,
try the suffix; on failure the `)` becomes part of the name.  `.` does not
match a newline, so a newline aborts.  Structural on `cs`. -/
def findNamedEnd (acc : List Char) : List Char → Option (String × List Char)
  | [] => Option.none
  | c :: rest =>
    if c = ')' then
      match matchNamedSuffix rest with
      | some rest2 => some (String.mk acc.reverse, rest2)
      | Option.none => findNamedEnd (c :: acc) rest
    else if c = '\n' then Option.none
    else findNamedEnd (c :: acc) rest

/-- Python `finditer` loop for the named pattern.  A failed match at `%` advances a
single character, as the engine does. -/
def namedScan : Nat → List Char → List String
  | 0, _ => []
  | _ + 1, [] => []
  | _ + 1, [_] => []
  | fuel + 1, c1 :: c2 :: rest =>
    if c1 = '%' && c2 = '(' then
      match findNamedEnd [] rest with
      | some (nm, rest2) => nm :: namedScan fuel rest2
      | Option.none => namedScan fuel (c2 :: rest)
    else
      namedScan fuel (c2 :: rest)

def namedMatches (s : String) : List String :=
  namedScan s.data.length s.data

/-- The set `{m["name"] for m in modnamed_placeholder_re().finditer(msg)}`,
as a duplicate-free list in first-occurrence order (Python iterates the set
in an unspecified hash order; only the underlying set is specified). -/
def namedNames (s : String) : List String := (namedMatches s).dedup

/-! ## String-chain helpers (`flatten_str_chain`, `is_add_chain_with_non_str`) -/

/-- Is the expression a string-literal constant? -/
def isStrConst : Expr → Bool
  | .constant _ (.str _) => true
  | _ => false

/-- The `parts` list accumulated by `flatten_str_chain`'s inner `visit`:
`some` exactly when every leaf of the `+`-chain is a string literal. -/
def flattenParts : Expr → Option (List String)
  | .constant _ (.str s) => some [s]
  | .binOp _ l .add r =>
    match flattenParts l, flattenParts r with
    | some ps, some qs => some (ps ++ qs)
    | _, _ => Option.none
  | _ => Option.none

/-- Python `flatten_str_chain`: concatenated text of a pure string-literal
`+`-chain, else no value. -/
def flatten_str_chain (e : Expr) : Option String :=
  (flattenParts e).map (fun ps => String.join ps)

mutual
/-- Python `is_add_chain_with_non_str`: true iff the node is an `Add` chain in which
some non-`BinOp` leaf is not a string literal (a nested non-`Add` `BinOp`
side recurses to `false` and is not itself treated as a non-string leaf,
mirroring the `if isinstance(side, ast.BinOp)` branch). -/
def is_add_chain_with_non_str : Expr → Bool
  | .binOp _ l op r =>
    match op with
    | .add => addChainSide l || addChainSide r
    | _ => false
  | _ => false

/-- One side of the chain: recurse into nested `BinOp`s, otherwise flag a
non-string-literal operand. -/
def addChainSide : Expr → Bool
  | .binOp p l op r => is_add_chain_with_non_str (.binOp p l op r)
  | e => !isStrConst e
end

/-! ## Visitor state and lexical stack -/

/-- One entry of `Visitor._stack`.  The stack holds every AST node from the
root to the current node; the three queries made against it only distinguish
function definitions, exception handlers and assignments (the latter with
its target list, for the `_stack[-2]` lookup), so every other node kind
collapses to `other`. -/
inductive Frame where
  | funcDef
  | handler (name : Option String)
  | assignF (targets : List Expr)
  | other

def Frame.isFuncDef : Frame → Bool
  | .funcDef => true
  | _ => false

/-- Python `Visitor._at_module_level`.  Note: despite its name, the Python helper
returns `True` iff a function or async-function definition is on the lexical
stack (i.e. the position is inside a function); both call sites use it
negated. -/
def at_module_level (stack : List Frame) : Bool := stack.any Frame.isFuncDef

/-- Python `Visitor._current_except_handler`: nearest enclosing exception handler,
stopping at a function boundary.  `some n` carries the handler's `as` name
(`n = none` when the handler binds no name). -/
def current_except_handler : List Frame → Option (Option String)
  | [] => Option.none
  | .handler n :: _ => some n
  | .funcDef :: _ => Option.none
  | _ :: rest => current_except_handler rest

/-- Mutable visitor state (minus the stack, which is passed separately):
`errors`, `_logging_name`, `_logger_name`, `_from_imports`.  The dict is a
newest-first association list; `lookupImport` takes the first hit, so
prepending is exactly dict overwrite. -/
structure St where
  errors : List Err
  logging_name : Option String
  logger_name : Option String
  from_imports : List (String × String)

def initSt : St := ⟨[], Option.none, Option.none, []⟩

def lookupImport (fi : List (String × String)) (k : String) : Option String :=
  (fi.find? (fun kv => kv.1 = k)).map (fun kv => kv.2)

/-- First keyword whose `arg` equals `nm` — the value the walrus pattern
`any((kw_ := kw).arg == nm for kw in node.keywords)` leaves bound when the
`any` succeeds. -/
def findKw (kws : List Keyword) (nm : String) : Option Keyword :=
  kws.find? (fun k => k.arg = some nm)

def Expr.pos : Expr → Pos
  | .constant p _ => p
  | .name p _ => p
  | .attribute p _ _ => p
  | .call p _ _ _ => p
  | .starred p _ => p
  | .binOp p _ _ _ => p
  | .joinedStr p _ => p
  | .dict p _ _ => p

/-! ## The per-call check battery (`Visitor.visit_Call`) -/

/-- LOG001 resolution: `logging.Logger` via the module alias, or bare
`Logger` via an unaliased from-import. -/
def log001Guard (ln : Option String) (fi : List (String × String)) : Expr → Bool
  | .attribute _ (.name _ v) attr => attr = "Logger" && ln = some v
  | .name _ id => id = "Logger" && lookupImport fi "Logger" = some "logging"
  | _ => false

def seg001 (ln : Option String) (fi : List (String × String)) (stack' : List Frame)
    (pos : Pos) (func : Expr) : List Err :=
  if log001Guard ln fi func && !at_module_level stack' then [mkErr pos LOG001] else []

/-- LOG015 resolution: logger method called directly on the logging module
alias, or a bare from-imported method name. -/
def log015Guard (ln : Option String) (fi : List (String × String)) : Expr → Bool
  | .attribute _ (.name _ v) attr => logger_methods.contains attr && ln = some v
  | .name _ id => logger_methods.contains id && lookupImport fi id = some "logging"
  | _ => false

def seg015 (ln : Option String) (fi : List (String × String)) (pos : Pos)
    (func : Expr) : List Err :=
  if log015Guard ln fi func then [mkErr pos LOG015] else []

/-- Python `getLogger` resolution, guarding both the logger-binding update and
LOG002. -/
def getLoggerGuard (ln : Option String) (fi : List (String × String)) : Expr → Bool
  | .attribute _ (.name _ v) attr => attr = "getLogger" && ln = some v
  | .name _ id => id = "getLogger" && lookupImport fi id = some "logging"
  | _ => false

def seg002 (args : List Expr) : List Err :=
  match args with
  | .name np id :: _ => if LOG002_names.contains id then [mkErr np LOG002] else []
  | _ => []

/-- The `_logger_name` update: direct single-`Name`-target assignment parent
(`_stack[-2]`) and, per the negated `_at_module_level`, no enclosing
function definition.  `stack'` includes the call's own frame on top. -/
def updatedLoggerName (lgn : Option String) (glGuard : Bool)
    (stack' : List Frame) : Option String :=
  if glGuard then
    match stack' with
    | _ :: Frame.assignF [Expr.name _ tid] :: _ =>
      if !at_module_level stack' then some tid else lgn
    | _ => lgn
  else lgn

/-- Battery entry condition (lines 236–243): attribute call on a `Name`
receiver that is the logging-module alias or the bound logger, with a
recognized method name.  Returns the method name. -/
def batteryGuard (ln lgn : Option String) : Expr → Option String
  | .attribute _ (.name _ v) attr =>
    if logger_methods.contains attr && (ln = some v || lgn = some v) then some attr
    else Option.none
  | _ => Option.none

def seg008 (attr : String) (pos : Pos) : List Err :=
  if attr = "warn" then [mkErr pos LOG008] else []

/-- The `extra_keys` sequence: literal-dict constant keys, or `dict(...)`
constructor keyword names. -/
def extraKeys (kws : List Keyword) : List (ConstVal × Pos) :=
  match findKw kws "extra" with
  | some kw =>
    match kw.value with
    | .dict _ keys _ =>
      keys.filterMap (fun k? =>
        match k? with
        | some (.constant kp v) => some (v, kp)
        | _ => Option.none)
    | .call _ (.name _ fid) _ ckws =>
      if fid = "dict" then
        ckws.filterMap (fun k =>
          match k.arg with
          | some a => some (ConstVal.str a, k.pos)
          | Option.none => Option.none)
      else []
    | _ => []
  | Option.none => []

def seg003 (kws : List Keyword) : List Err :=
  (extraKeys kws).filterMap (fun kv =>
    match kv.1 with
    | .str s =>
      if logrecord_attributes.contains s then some (mkErr kv.2 (LOG003msg s))
      else Option.none
    | _ => Option.none)

/-- Python `isinstance(e, ast.Constant) and e.value` (truthy literal). -/
def constTruthy : Expr → Bool
  | .constant _ v => v.truthy
  | _ => false

/-- Python `isinstance(e, ast.Constant) and not e.value` (falsy literal). -/
def constFalsy : Expr → Bool
  | .constant _ v => !v.truthy
  | _ => false

/-- Python `isinstance(e, ast.Name) and e.id == exc_handler.name` (the handler,
when present, carries `some hn`). -/
def nameMatchesHandler (e : Expr) (excH : Option (Option String)) : Bool :=
  match e, excH with
  | .name _ id, some hn => hn = some id
  | _, _ => false

/-- The `if exception / elif error-with-handler / elif` chain producing
LOG004, LOG006, LOG007, LOG005 and LOG014. -/
def segExcChain (attr : String) (pos : Pos) (kws : List Keyword)
    (excH : Option (Option String)) : List Err :=
  if attr = "exception" then
    (if excH = Option.none then [mkErr pos LOG004] else []) ++
    (match findKw kws "exc_info" with
     | some kw =>
       if constTruthy kw.value || nameMatchesHandler kw.value excH then
         [mkErr kw.pos LOG006]
       else if constFalsy kw.value then [mkErr kw.pos LOG007]
       else []
     | Option.none => [])
  else if attr = "error" && excH.isSome then
    if (match findKw kws "exc_info" with
        | some kw => constTruthy kw.value || nameMatchesHandler kw.value excH
        | Option.none => true) then
      [mkErr pos LOG005]
    else []
  else if excH = Option.none then
    match findKw kws "exc_info" with
    | some kw => if constTruthy kw.value then [mkErr kw.pos LOG014] else []
    | Option.none => []
  else []

def seg010 (attr : String) (args : List Expr) (excH : Option (Option String)) :
    List Err :=
  if attr = "exception" then
    match args, excH with
    | .name ap id :: _, some hn => if hn = some id then [mkErr ap LOG010] else []
    | _, _ => []
  else []

/-- Resolution of the message argument: positional slot (index 1 for `log`,
0 otherwise), else the `msg` keyword (flag `true`), else nothing. -/
def resolveMsgArg (attr : String) (args : List Expr) (kws : List Keyword) :
    Option (Expr × Bool) :=
  if attr = "log" && args.length ≥ 2 then (args.get? 1).map (fun e => (e, false))
  else if attr ≠ "log" && args.length ≥ 1 then (args.get? 0).map (fun e => (e, false))
  else
    match findKw kws "msg" with
    | some k => some (k.value, true)
    | Option.none => Option.none

/-- The four pre-formatted-message shapes of LOG011. -/
def isPreformatted : Expr → Bool
  | .joinedStr _ _ => true
  | .call _ f _ _ =>
    match f with
    | .attribute _ (.constant _ (.str _)) a => a = "format"
    | _ => false
  | .binOp p l op r =>
    (match op, l with
     | .mod, .constant _ (.str _) => true
     | _, _ => false) || is_add_chain_with_non_str (.binOp p l op r)
  | _ => false

def seg011 (msgArg? : Option (Expr × Bool)) : List Err :=
  match msgArg? with
  | some (ma, _) => if isPreformatted ma then [mkErr ma.pos LOG011] else []
  | Option.none => []

def isStarredExpr : Expr → Bool
  | .starred _ _ => true
  | _ => false

/-- Python `all(isinstance(k, ast.Constant) and isinstance(k.value, str) ...)`:
`some` (the key strings, in order) exactly when every key is a
string-literal constant. -/
def dictKeyStrs (keys : List (Option Expr)) : Option (List String) :=
  keys.mapM (fun k? =>
    match k? with
    | some (.constant _ (.str s)) => some s
    | _ => Option.none)

/-- The two LOG013 findings.  `modnames` and `given` are duplicate-free
lists standing for the Python sets; the keys of a multi-key finding are
joined in first-occurrence order (Python joins them in unspecified set
order — the underlying key sets and the singleton messages coincide). -/
def log013Errs (msgPos dictPos : Pos) (modnames given : List String) : List Err :=
  let missing := modnames.filter (fun k => !given.contains k)
  let unref := given.filter (fun k => !modnames.contains k)
  (if missing ≠ [] then
    [mkErr msgPos (LOG013msg "missing" (if missing.length ≠ 1 then "s" else "")
      (String.intercalate ", " (missing.map pyRepr)))]
   else []) ++
  (if unref ≠ [] then
    [mkErr dictPos (LOG013msg "unreferenced" (if unref.length ≠ 1 then "s" else "")
      (String.intercalate ", " (unref.map pyRepr)))]
   else [])

/-- Python `arg_count = len(node.args) - 1 - (node.func.attr == "log")`, a Python
`int` (non-negative whenever the message was passed positionally, the only
way the comparison is reached). -/
def argCountOf (attr : String) (args : List Expr) : Int :=
  (args.length : Int) - 1 - (if attr = "log" then 1 else 0)

/-- The LOG012 count comparison. -/
def modposErrs (attr : String) (args : List Expr) (msgPos : Pos) (msg : String) :
    List Err :=
  if 0 < modposCount msg ∧ (modposCount msg : Int) ≠ argCountOf attr args then
    [mkErr msgPos (LOG012msg (modposCount msg)
      (if modposCount msg ≠ 1 then "s" else "") (argCountOf attr args)
      (if argCountOf attr args ≠ 1 then "s" else ""))]
  else []

/-- Python `dict_idx`: index of the candidate mapping argument. -/
def dictIdxOf (attr : String) : Nat := if attr = "log" then 2 else 1

/-- Body of `_check_msg_and_args` after the assertion: the named/dict branch
(LOG013, superseding the positional count) when a sole trailing dict literal
with all-string keys meets named placeholders, else the positional count
comparison (LOG012). -/
def check_inner (attr : String) (args : List Expr) (msgPos : Pos)
    (msg : String) : List Err :=
  if args.length = dictIdxOf attr + 1 then
    match args.get? (dictIdxOf attr) with
    | some (.dict dpos keys _) =>
      match dictKeyStrs keys with
      | some given =>
        if namedNames msg ≠ [] then
          log013Errs msgPos dpos (namedNames msg) given.dedup
        else modposErrs attr args msgPos msg
      | Option.none => modposErrs attr args msgPos msg
    | _ => modposErrs attr args msgPos msg
  else modposErrs attr args msgPos msg

/-- Python `Visitor._check_msg_and_args`.  The result is `none` exactly when the
`assert isinstance(node.func, ast.Attribute)` would fail; the caller's guard
makes that unreachable (claim C9). -/
def check_msg_and_args (func : Expr) (args : List Expr) (msgPos : Pos)
    (msg : String) : Option (List Err) :=
  match func with
  | .attribute _ _ attr => some (check_inner attr args msgPos msg)
  | _ => Option.none

/-- The LOG012/LOG013 block guarding `_check_msg_and_args`: positional
message, non-empty flattened literal, no starred argument. -/
def seg01213 (func : Expr) (args : List Expr)
    (msgArg? : Option (Expr × Bool)) : List Err :=
  match msgArg? with
  | some (ma, kwarg) =>
    if !kwarg then
      match flatten_str_chain ma with
      | some msg =>
        if msg ≠ "" && !args.any isStarredExpr then
          (check_msg_and_args func args ma.pos msg).getD []
        else []
      | Option.none => []
    else []
  | Option.none => []

/-- The battery of checks run when the receiver resolves to a logging
entity, in source order. -/
def batteryErrs (func : Expr) (attr : String) (pos : Pos) (args : List Expr)
    (kws : List Keyword) (excH : Option (Option String)) : List Err :=
  seg008 attr pos ++ seg003 kws ++ segExcChain attr pos kws excH ++
    seg010 attr args excH ++ seg011 (resolveMsgArg attr args kws) ++
    seg01213 func args (resolveMsgArg attr args kws)

/-- Python `Visitor.visit_Call`, minus the recursion into children: new errors (in
emission order) and the updated `_logger_name`.  `stack'` has the call's own
frame on top, as `self._stack` does when the handler runs; the battery reads
`_logger_name` after the `getLogger` block may have updated it. -/
def visit_Call_checks (ln lgn : Option String) (fi : List (String × String))
    (stack' : List Frame) (pos : Pos) (func : Expr) (args : List Expr)
    (kws : List Keyword) : List Err × Option String :=
  let glGuard := getLoggerGuard ln fi func
  let lgn' := updatedLoggerName lgn glGuard stack'
  let errs :=
    seg001 ln fi stack' pos func ++
    seg015 ln fi pos func ++
    (if glGuard then seg002 args else []) ++
    (match batteryGuard ln lgn' func with
     | some attr => batteryErrs func attr pos args kws (current_except_handler stack')
     | Option.none => [])
  (errs, lgn')

/-! ## Import and attribute handlers -/

/-- Python `Visitor.visit_Import`: record the local name of `import logging [as x]`. -/
def visit_Import (st : St) (names : List ImportAlias) : St :=
  names.foldl
    (fun acc a =>
      if a.name = "logging" then
        { acc with logging_name := some (a.asname.getD a.name) }
      else acc)
    st

/-- Python `Visitor.visit_ImportFrom`: on `from logging import ...`, emit LOG009
for each `WARN` alias (renamed or not; position per the modern ≥3.10
branch, at the alias) and record each unaliased symbol. -/
def visit_ImportFrom (st : St) (mod : Option String) (names : List ImportAlias) :
    St :=
  if mod = some "logging" then
    names.foldl
      (fun acc a =>
        let acc1 :=
          if a.name = "WARN" then
            { acc with errors := acc.errors ++ [mkErr a.pos LOG009] }
          else acc
        if a.asname = Option.none then
          { acc1 with from_imports := (a.name, "logging") :: acc1.from_imports }
        else acc1)
      st
  else st

/-- Python `Visitor.visit_Attribute`: LOG009 on `loggingalias.WARN`. -/
def visit_Attribute (st : St) (pos : Pos) (value : Expr) (attr : String) : St :=
  match st.logging_name, value with
  | some ln, .name _ id =>
    if id = ln && attr = "WARN" then
      { st with errors := st.errors ++ [mkErr pos LOG009] }
    else st
  | _, _ => st

/-! ## The traversal

State-passing depth-first walk mirroring `ast.NodeVisitor`: the overridden
`visit` pushes the node's frame, dispatches to the handler if one exists,
and `generic_visit` recurses into children in `_fields` order. -/

/-- Apply `visit_Call`'s own checks to the state: append the new errors and
store the possibly-updated `_logger_name`. -/
def applyCallChecks (st : St) (stack' : List Frame) (pos : Pos) (func : Expr)
    (args : List Expr) (kws : List Keyword) : St :=
  match visit_Call_checks st.logging_name st.logger_name st.from_imports
      stack' pos func args kws with
  | (errs, lgn') => { st with errors := st.errors ++ errs, logger_name := lgn' }

mutual
def visitStmts (stack : List Frame) (st : St) : List Stmt → St
  | [] => st
  | s :: rest => visitStmts stack (visitStmt stack st s) rest

def visitStmt (stack : List Frame) (st : St) : Stmt → St
  | .importStmt _ names => visit_Import st names
  | .importFrom _ mod names => visit_ImportFrom st mod names
  | .assign _ targets value =>
    let stack' := Frame.assignF targets :: stack
    let st1 := visitExprs stack' st targets
    visitExpr stack' st1 value
  | .exprStmt _ value => visitExpr (Frame.other :: stack) st value
  | .functionDef _ _ body => visitStmts (Frame.funcDef :: stack) st body
  | .asyncFunctionDef _ _ body => visitStmts (Frame.funcDef :: stack) st body
  | .classDef _ _ body => visitStmts (Frame.other :: stack) st body
  | .tryStmt _ body handlers orelse finalbody =>
    let stack' := Frame.other :: stack
    let st1 := visitStmts stack' st body
    let st2 := visitHandlers stack' st1 handlers
    let st3 := visitStmts stack' st2 orelse
    visitStmts stack' st3 finalbody

def visitHandlers (stack : List Frame) (st : St) : List Handler → St
  | [] => st
  | h :: rest => visitHandlers stack (visitHandler stack st h) rest

def visitHandler (stack : List Frame) (st : St) : Handler → St
  | .mk _ ty nm body =>
    let stack' := Frame.handler nm :: stack
    let st1 :=
      match ty with
      | some e => visitExpr stack' st e
      | Option.none => st
    visitStmts stack' st1 body

def visitExprs (stack : List Frame) (st : St) : List Expr → St
  | [] => st
  | e :: rest => visitExprs stack (visitExpr stack st e) rest

def visitOptExprs (stack : List Frame) (st : St) : List (Option Expr) → St
  | [] => st
  | e? :: rest =>
    let st1 :=
      match e? with
      | some e => visitExpr stack st e
      | Option.none => st
    visitOptExprs stack st1 rest

def visitKeywords (stack : List Frame) (st : St) : List Keyword → St
  | [] => st
  | .mk _ _ v :: rest =>
    visitKeywords stack (visitExpr (Frame.other :: stack) st v) rest

def visitExpr (stack : List Frame) (st : St) : Expr → St
  | .constant _ _ => st
  | .name _ _ => st
  | .attribute pos value attr =>
    let st1 := visit_Attribute st pos value attr
    visitExpr (Frame.other :: stack) st1 value
  | .call pos func args kws =>
    let stack' := Frame.other :: stack
    let st1 := applyCallChecks st stack' pos func args kws
    let st2 := visitExpr stack' st1 func
    let st3 := visitExprs stack' st2 args
    visitKeywords stack' st3 kws
  | .starred _ v => visitExpr (Frame.other :: stack) st v
  | .binOp _ l _ r =>
    let stack' := Frame.other :: stack
    visitExpr stack' (visitExpr stack' st l) r
  | .joinedStr _ vals => visitExprs (Frame.other :: stack) st vals
  | .dict _ keys vals =>
    let stack' := Frame.other :: stack
    let st1 := visitOptExprs stack' st keys
    visitExprs stack' st1 vals
end

/-- Run the visitor on a module, as `Plugin.run` does: fresh state, the
module's own frame on the stack, then its body in order. -/
def visitModule (m : Module) : St :=
  visitStmts [Frame.other] initSt m.body

/-- The plugin's output for one file: the diagnostics in traversal order. -/
def analyze (m : Module) : List Err := (visitModule m).errors

/-! ## Rule-code classification of diagnostics

Every message starts with its five-letter-plus-digit rule code; `codeOf`
extracts it, and `codeErrs` restricts an error list to one rule. -/

def codeOf (m : String) : List Char := m.data.take 6

def codeErrs (c : String) (l : List Err) : List Err :=
  l.filter (fun e => decide (codeOf e.2.2 = c.data))

/-- Spec-side characterisation of `flatten_str_chain` (from the spec's
words): the expression is a single string literal, or a chain of string
literals joined exclusively by the addition operator, and the result is the
concatenated literal text. -/
inductive StrChain : Expr → String → Prop where
  | lit (p : Pos) (s : String) : StrChain (.constant p (.str s)) s
  | add (p : Pos) (l r : Expr) (s t : String) :
      StrChain l s → StrChain r t → StrChain (.binOp p l .add r) (s ++ t)

/-- The condition under which `_check_msg_and_args` takes its named-key
branch (LOG013), superseding the positional count comparison: a sole
trailing dict-literal argument whose keys are all string literals, together
with at least one named placeholder in the message. -/
def log013Applicable (attr : String) (args : List Expr) (msg : String) : Bool :=
  args.length = dictIdxOf attr + 1 &&
  (match args.get? (dictIdxOf attr) with
   | some (.dict _ keys _) => (dictKeyStrs keys).isSome
   | _ => false) &&
  namedNames msg ≠ []

/-- The visitor state fields a tree without logging imports can never set. -/
def cleanSt (st : St) : Prop :=
  st.logging_name = Option.none ∧ st.logger_name = Option.none ∧
    st.from_imports = []

mutual
/-- No `import logging` alias and no `from logging import ...` statement,
anywhere in the statement (recursively through all bodies). -/
def noLogImportStmt : Stmt → Bool
  | .importStmt _ names => names.all (fun a => a.name ≠ "logging")
  | .importFrom _ mod _ => mod ≠ some "logging"
  | .assign _ _ _ => true
  | .exprStmt _ _ => true
  | .functionDef _ _ body => noLogImportStmts body
  | .asyncFunctionDef _ _ body => noLogImportStmts body
  | .classDef _ _ body => noLogImportStmts body
  | .tryStmt _ body handlers orelse finalbody =>
    noLogImportStmts body && noLogImportHandlers handlers &&
      noLogImportStmts orelse && noLogImportStmts finalbody

def noLogImportStmts : List Stmt → Bool
  | [] => true
  | s :: rest => noLogImportStmt s && noLogImportStmts rest

def noLogImportHandlers : List Handler → Bool
  | [] => true
  | .mk _ _ _ body :: rest => noLogImportStmts body && noLogImportHandlers rest
end

/-! ## Concrete trees used as counterexamples, scenarios and witnesses.

They mirror sources from the plugin's own test suite; positions are the
`(lineno, col_offset)` pairs CPython's parser assigns to those sources. -/

/-- Fixture for `import logging` on line `l`. -/
def importLogging (l : Nat) : Stmt :=
  .importStmt ⟨l, 0⟩ [⟨⟨l, 7⟩, "logging", Option.none⟩]

/-- Fixture for `logger = logging.getLogger(__name__)` on line `l`. -/
def loggerAssign (l : Nat) : Stmt :=
  .assign ⟨l, 0⟩ [.name ⟨l, 0⟩ "logger"]
    (.call ⟨l, 9⟩ (.attribute ⟨l, 9⟩ (.name ⟨l, 9⟩ "logging") "getLogger")
      [.name ⟨l, 27⟩ "__name__"] [])

/-- Fixture for `import logging` / `logging.Logger("x")` (module level). -/
def exLoggerModuleLevel : Module :=
  ⟨[importLogging 1,
    .exprStmt ⟨2, 0⟩ (.call ⟨2, 0⟩
      (.attribute ⟨2, 0⟩ (.name ⟨2, 0⟩ "logging") "Logger")
      [.constant ⟨2, 15⟩ (.str "x")] [])]⟩

/-- Fixture for `import logging` / `def test_thing():` / `    logging.Logger("x")`. -/
def exLoggerInFunction : Module :=
  ⟨[importLogging 1,
    .functionDef ⟨2, 0⟩ "test_thing" [
      .exprStmt ⟨3, 4⟩ (.call ⟨3, 4⟩
        (.attribute ⟨3, 4⟩ (.name ⟨3, 4⟩ "logging") "Logger")
        [.constant ⟨3, 19⟩ (.str "x")] [])]]⟩

/-- Fixture for `import logging` / `logger = logging.getLogger(__name__)` /
`logger.error("Uh oh", exc_info=True)` — an `error` call outside any
exception handler carrying `exc_info=True`. -/
def exErrorExcInfoTrue : Module :=
  ⟨[importLogging 1, loggerAssign 2,
    .exprStmt ⟨3, 0⟩ (.call ⟨3, 0⟩
      (.attribute ⟨3, 0⟩ (.name ⟨3, 0⟩ "logger") "error")
      [.constant ⟨3, 13⟩ (.str "Uh oh")]
      [.mk ⟨3, 22⟩ (some "exc_info") (.constant ⟨3, 31⟩ (.bool true))])]⟩

/-- Fixture for `import logging` / `logger = logging.getLogger(__name__)` /
`logger.info("%s %s %(a)s", {"a": x})` — positional mismatch (2 required,
1 supplied) that the named-key branch supersedes. -/
def exSuperseded : Module :=
  ⟨[importLogging 1, loggerAssign 2,
    .exprStmt ⟨3, 0⟩ (.call ⟨3, 0⟩
      (.attribute ⟨3, 0⟩ (.name ⟨3, 0⟩ "logger") "info")
      [.constant ⟨3, 12⟩ (.str "%s %s %(a)s"),
       .dict ⟨3, 27⟩ [some (.constant ⟨3, 28⟩ (.str "a"))] [.name ⟨3, 33⟩ "x"]]
      [])]⟩

/-- Arguments of the `exSuperseded` call. -/
def exSupersededArgs : List Expr :=
  [.constant ⟨3, 12⟩ (.str "%s %s %(a)s"),
   .dict ⟨3, 27⟩ [some (.constant ⟨3, 28⟩ (.str "a"))] [.name ⟨3, 33⟩ "x"]]

/-- Fixture for `from logging import WARN as whatev`. -/
def exWarnAliased : Module :=
  ⟨[.importFrom ⟨1, 0⟩ (some "logging") [⟨⟨1, 20⟩, "WARN", some "whatev"⟩]]⟩

/-- Fixture for `import logging` / `logger = logging.getLogger(__name__)` / `try:` /
`    x` / `except Exception as exc:` / `    logger.exception(exc)`. -/
def exExceptionExc : Module :=
  ⟨[importLogging 1, loggerAssign 2,
    .tryStmt ⟨3, 0⟩ [.exprStmt ⟨4, 4⟩ (.name ⟨4, 4⟩ "x")]
      [.mk ⟨5, 0⟩ (some (.name ⟨5, 7⟩ "Exception")) (some "exc")
        [.exprStmt ⟨6, 4⟩ (.call ⟨6, 4⟩
          (.attribute ⟨6, 4⟩ (.name ⟨6, 4⟩ "logger") "exception")
          [.name ⟨6, 21⟩ "exc"] [])]]
      [] []]⟩

/-- Fixture for `logger.info("Blending %(fruit)s", {})` after a module-level logger
binding. -/
def exNamedMissing : Module :=
  ⟨[importLogging 1, loggerAssign 2,
    .exprStmt ⟨3, 0⟩ (.call ⟨3, 0⟩
      (.attribute ⟨3, 0⟩ (.name ⟨3, 0⟩ "logger") "info")
      [.constant ⟨3, 12⟩ (.str "Blending %(fruit)s"), .dict ⟨3, 34⟩ [] []]
      [])]⟩

/-- Fixture for `logger.info("Blending %(fruit)s", {"fruit": fruit, "colour": "yellow"})`. -/
def exNamedUnreferenced : Module :=
  ⟨[importLogging 1, loggerAssign 2,
    .exprStmt ⟨3, 0⟩ (.call ⟨3, 0⟩
      (.attribute ⟨3, 0⟩ (.name ⟨3, 0⟩ "logger") "info")
      [.constant ⟨3, 12⟩ (.str "Blending %(fruit)s"),
       .dict ⟨3, 34⟩ [some (.constant ⟨3, 35⟩ (.str "fruit")),
                      some (.constant ⟨3, 51⟩ (.str "colour"))]
         [.name ⟨3, 44⟩ "fruit", .constant ⟨3, 61⟩ (.str "yellow")]]
      [])]⟩

/-- Fixture for `logger.info("Blending %(fruit)s", {"fruit": fruit})`. -/
def exNamedExact : Module :=
  ⟨[importLogging 1, loggerAssign 2,
    .exprStmt ⟨3, 0⟩ (.call ⟨3, 0⟩
      (.attribute ⟨3, 0⟩ (.name ⟨3, 0⟩ "logger") "info")
      [.constant ⟨3, 12⟩ (.str "Blending %(fruit)s"),
       .dict ⟨3, 34⟩ [some (.constant ⟨3, 35⟩ (.str "fruit"))]
         [.name ⟨3, 44⟩ "fruit"]]
      [])]⟩

/-- A module without logging imports: `foo.info("x")` inside a function and
a `try`/`except` — calls and handlers, but nothing logging-related. -/
def exNoLogging : Module :=
  ⟨[.functionDef ⟨1, 0⟩ "f" [
      .exprStmt ⟨2, 4⟩ (.call ⟨2, 4⟩
        (.attribute ⟨2, 4⟩ (.name ⟨2, 4⟩ "foo") "info")
        [.constant ⟨2, 13⟩ (.str "x")] [])],
    .tryStmt ⟨3, 0⟩ [.exprStmt ⟨4, 4⟩ (.name ⟨4, 4⟩ "y")]
      [.mk ⟨5, 0⟩ (some (.name ⟨5, 7⟩ "Exception")) (some "exc")
        [.exprStmt ⟨6, 4⟩ (.call ⟨6, 4⟩
          (.attribute ⟨6, 4⟩ (.name ⟨6, 4⟩ "foo") "exception")
          [.name ⟨6, 22⟩ "exc"] [])]]
      [] []]⟩

theorem codeErrs_append (c : String) (l1 l2 : List Err) :
    codeErrs c (l1 ++ l2) = codeErrs c l1 ++ codeErrs c l2 :=
  List.filter_append ..

theorem codeErrs_eq_nil {c : String} {l : List Err}
    (h : ∀ e ∈ l, codeOf e.2.2 ≠ c.data) : codeErrs c l = [] :=
  List.filter_eq_nil_iff.mpr (by simpa using h)

theorem codeOf_append_left (s t : String) (h : 6 ≤ s.data.length) :
    codeOf (s ++ t) = codeOf s := by
  simp [codeOf, String.data_append, List.take_append_of_le_length h]

theorem six_le_append (s t : String) (h : 6 ≤ s.data.length) :
    6 ≤ (s ++ t).data.length := by
  simp only [String.data_append, List.length_append]
  omega

theorem codeOf_LOG003msg (k : String) : codeOf (LOG003msg k) = "LOG003".data := by
  unfold LOG003msg
  rw [codeOf_append_left _ _ (by decide)]
  decide

theorem codeOf_LOG012msg (n : Nat) (ns : String) (m : Int) (ms : String) :
    codeOf (LOG012msg n ns m ms) = "LOG012".data := by
  unfold LOG012msg
  rw [codeOf_append_left _ _ (by decide)]
  decide

theorem codeOf_LOG013msg (mistake ns keys : String) :
    codeOf (LOG013msg mistake ns keys) = "LOG013".data := by
  unfold LOG013msg
  rw [codeOf_append_left _ _ (by decide)]
  decide

theorem codeErrs_keep {c : String} {l : List Err}
    (h : ∀ e ∈ l, codeOf e.2.2 = c.data) : codeErrs c l = l :=
  List.filter_eq_self.mpr (by simpa using h)

/-! ## Which rule codes each check segment can emit -/

theorem seg001_codes (ln : Option String) (fi : List (String × String))
    (stack' : List Frame) (pos : Pos) (func : Expr) :
    ∀ e ∈ seg001 ln fi stack' pos func, codeOf e.2.2 = "LOG001".data := by
  intro e he
  unfold seg001 at he
  split at he
  · rw [List.mem_singleton] at he; subst he; rfl
  · simp at he

theorem seg015_codes (ln : Option String) (fi : List (String × String))
    (pos : Pos) (func : Expr) :
    ∀ e ∈ seg015 ln fi pos func, codeOf e.2.2 = "LOG015".data := by
  intro e he
  unfold seg015 at he
  split at he
  · rw [List.mem_singleton] at he; subst he; rfl
  · simp at he

theorem seg002_codes (args : List Expr) :
    ∀ e ∈ seg002 args, codeOf e.2.2 = "LOG002".data := by
  intro e he
  unfold seg002 at he
  split at he
  · split at he
    · rw [List.mem_singleton] at he; subst he; rfl
    · simp at he
  · simp at he

theorem seg008_codes (attr : String) (pos : Pos) :
    ∀ e ∈ seg008 attr pos, codeOf e.2.2 = "LOG008".data := by
  intro e he
  unfold seg008 at he
  split at he
  · rw [List.mem_singleton] at he; subst he; rfl
  · simp at he

theorem seg003_codes (kws : List Keyword) :
    ∀ e ∈ seg003 kws, codeOf e.2.2 = "LOG003".data := by
  intro e he
  unfold seg003 at he
  rw [List.mem_filterMap] at he
  obtain ⟨kv, _, hkv⟩ := he
  revert hkv
  split
  · split
    · intro hkv
      injection hkv with hkv
      subst hkv
      exact codeOf_LOG003msg _
    · intro hkv; cases hkv
  · intro hkv; cases hkv

theorem segExcChain_codes (attr : String) (pos : Pos) (kws : List Keyword)
    (excH : Option (Option String)) :
    ∀ e ∈ segExcChain attr pos kws excH, codeOf e.2.2 ∈
      ["LOG004".data, "LOG006".data, "LOG007".data, "LOG005".data, "LOG014".data] := by
  intro e he
  unfold segExcChain at he
  split at he
  · rw [List.mem_append] at he
    rcases he with he | he
    · split at he
      · rw [List.mem_singleton] at he; subst he
        exact List.mem_cons_self _ _
      · simp at he
    · split at he
      · split at he
        · rw [List.mem_singleton] at he; subst he
          exact List.mem_cons_of_mem _ (List.mem_cons_self _ _)
        · split at he
          · rw [List.mem_singleton] at he; subst he
            exact List.mem_cons_of_mem _ (List.mem_cons_of_mem _
              (List.mem_cons_self _ _))
          · simp at he
      · simp at he
  · split at he
    · split at he
      · rw [List.mem_singleton] at he; subst he
        exact List.mem_cons_of_mem _ (List.mem_cons_of_mem _
          (List.mem_cons_of_mem _ (List.mem_cons_self _ _)))
      · simp at he
    · split at he
      · split at he
        · split at he
          · rw [List.mem_singleton] at he; subst he
            exact List.mem_cons_of_mem _ (List.mem_cons_of_mem _
              (List.mem_cons_of_mem _ (List.mem_cons_of_mem _
                (List.mem_cons_self _ _))))
          · simp at he
        · simp at he
      · simp at he

theorem seg010_codes (attr : String) (args : List Expr)
    (excH : Option (Option String)) :
    ∀ e ∈ seg010 attr args excH, codeOf e.2.2 = "LOG010".data := by
  intro e he
  unfold seg010 at he
  split at he
  · split at he
    · split at he
      · rw [List.mem_singleton] at he; subst he; rfl
      · simp at he
    · simp at he
  · simp at he

theorem seg011_codes (msgArg? : Option (Expr × Bool)) :
    ∀ e ∈ seg011 msgArg?, codeOf e.2.2 = "LOG011".data := by
  intro e he
  unfold seg011 at he
  split at he
  · split at he
    · rw [List.mem_singleton] at he; subst he; rfl
    · simp at he
  · simp at he

theorem modposErrs_codes (attr : String) (args : List Expr) (msgPos : Pos)
    (msg : String) :
    ∀ e ∈ modposErrs attr args msgPos msg, codeOf e.2.2 = "LOG012".data := by
  intro e he
  unfold modposErrs at he
  split at he
  · rw [List.mem_singleton] at he; subst he
    exact codeOf_LOG012msg ..
  · simp at he

theorem log013Errs_codes (msgPos dictPos : Pos) (modnames given : List String) :
    ∀ e ∈ log013Errs msgPos dictPos modnames given,
      codeOf e.2.2 = "LOG013".data := by
  intro e he
  unfold log013Errs at he
  rw [List.mem_append] at he
  rcases he with he | he <;>
    · split at he
      · rw [List.mem_singleton] at he; subst he
        exact codeOf_LOG013msg ..
      · simp at he

theorem check_inner_codes (attr : String) (args : List Expr) (msgPos : Pos)
    (msg : String) :
    ∀ e ∈ check_inner attr args msgPos msg,
      codeOf e.2.2 = "LOG012".data ∨ codeOf e.2.2 = "LOG013".data := by
  intro e he
  unfold check_inner at he
  repeat' split at he
  all_goals
    first
      | exact Or.inl (modposErrs_codes _ _ _ _ _ he)
      | exact Or.inr (log013Errs_codes _ _ _ _ _ he)

theorem seg01213_codes (func : Expr) (args : List Expr)
    (msgArg? : Option (Expr × Bool)) :
    ∀ e ∈ seg01213 func args msgArg?,
      codeOf e.2.2 = "LOG012".data ∨ codeOf e.2.2 = "LOG013".data := by
  intro e he
  unfold seg01213 at he
  split at he
  · split at he
    · split at he
      · split at he
        · revert he
          unfold check_msg_and_args
          split
          · intro he
            exact check_inner_codes _ _ _ _ e (by simpa using he)
          · intro he; simp at he
        · simp at he
      · simp at he
    · simp at he
  · simp at he

theorem batteryErrs_codes (func : Expr) (attr : String) (pos : Pos)
    (args : List Expr) (kws : List Keyword) (excH : Option (Option String)) :
    ∀ e ∈ batteryErrs func attr pos args kws excH, codeOf e.2.2 ∈
      ["LOG008".data, "LOG003".data, "LOG004".data, "LOG006".data,
       "LOG007".data, "LOG005".data, "LOG014".data, "LOG010".data,
       "LOG011".data, "LOG012".data, "LOG013".data] := by
  intro e he
  unfold batteryErrs at he
  simp only [List.mem_append] at he
  rcases he with ((((he | he) | he) | he) | he) | he
  · have := seg008_codes attr pos e he; simp [this]
  · have := seg003_codes kws e he; simp [this]
  · have := segExcChain_codes attr pos kws excH e he
    simp only [List.mem_cons, List.not_mem_nil, or_false] at this ⊢
    tauto
  · have := seg010_codes attr args excH e he; simp [this]
  · have := seg011_codes _ e he; simp [this]
  · have := seg01213_codes func args _ e he
    rcases this with h | h <;> simp [h]

/-! ## The string-chain flattener -/

theorem join_append (l1 l2 : List String) :
    String.join (l1 ++ l2) = String.join l1 ++ String.join l2 := by
  simp only [String.join_eq]
  apply String.ext
  simp [String.data_append]

theorem join_singleton (u : String) : String.join [u] = u := by
  apply String.ext
  simp [String.join_eq]

theorem flatten_sound : (e : Expr) → (s : String) →
    flatten_str_chain e = some s → StrChain e s
  | .constant p (.str u), s, h => by
    simp only [flatten_str_chain, flattenParts, Option.map_some'] at h
    obtain rfl : String.join [u] = s := by injection h
    rw [join_singleton]
    exact .lit p u
  | .binOp p l .add r, s, h => by
    simp only [flatten_str_chain, flattenParts] at h
    cases hl : flattenParts l with
    | none => rw [hl] at h; simp at h
    | some ps =>
      cases hr : flattenParts r with
      | none => rw [hl, hr] at h; simp at h
      | some qs =>
        rw [hl, hr] at h
        simp only [Option.map_some'] at h
        obtain rfl : String.join (ps ++ qs) = s := by injection h
        rw [join_append]
        exact .add p l r _ _
          (flatten_sound l _ (by simp [flatten_str_chain, hl]))
          (flatten_sound r _ (by simp [flatten_str_chain, hr]))

theorem flatten_complete {e : Expr} {s : String} (h : StrChain e s) :
    flatten_str_chain e = some s := by
  induction h with
  | lit p u =>
    simp [flatten_str_chain, flattenParts, join_singleton]
  | add p l r u v _ _ ihl ihr =>
    simp only [flatten_str_chain, flattenParts] at ihl ihr ⊢
    cases hl : flattenParts l with
    | none => rw [hl] at ihl; simp at ihl
    | some ps =>
      cases hr : flattenParts r with
      | none => rw [hr] at ihr; simp at ihr
      | some qs =>
        rw [hl] at ihl
        rw [hr] at ihr
        simp only [Option.map_some', Option.some.injEq] at ihl ihr
        simp [join_append, ihl, ihr]

/-! ## Clean-state preservation: without logging imports nothing fires -/

theorem log001Guard_clean (func : Expr) :
    log001Guard Option.none [] func = false := by
  unfold log001Guard
  split
  · simp
  · simp [lookupImport]
  · rfl

theorem log015Guard_clean (func : Expr) :
    log015Guard Option.none [] func = false := by
  unfold log015Guard
  split
  · simp
  · simp [lookupImport]
  · rfl

theorem getLoggerGuard_clean (func : Expr) :
    getLoggerGuard Option.none [] func = false := by
  unfold getLoggerGuard
  split
  · simp
  · simp [lookupImport]
  · rfl

theorem batteryGuard_clean (func : Expr) :
    batteryGuard Option.none Option.none func = Option.none := by
  unfold batteryGuard
  split
  · split
    · next h => simp at h
    · rfl
  · rfl

theorem visit_Call_checks_clean (stack' : List Frame) (pos : Pos) (func : Expr)
    (args : List Expr) (kws : List Keyword) :
    visit_Call_checks Option.none Option.none [] stack' pos func args kws =
      ([], Option.none) := by
  unfold visit_Call_checks seg001 seg015 updatedLoggerName
  simp [log001Guard_clean, log015Guard_clean, getLoggerGuard_clean,
    batteryGuard_clean]

theorem applyCallChecks_clean (st : St) (h : cleanSt st) (stack' : List Frame)
    (pos : Pos) (func : Expr) (args : List Expr) (kws : List Keyword) :
    applyCallChecks st stack' pos func args kws = st := by
  obtain ⟨h1, h2, h3⟩ := h
  unfold applyCallChecks
  rw [h1, h2, h3, visit_Call_checks_clean]
  cases st
  simp_all

theorem visit_Attribute_clean (st : St) (h : cleanSt st) (pos : Pos)
    (value : Expr) (attr : String) : visit_Attribute st pos value attr = st := by
  unfold visit_Attribute
  rw [h.1]

theorem visit_Import_clean (st : St) (names : List ImportAlias)
    (h : names.all (fun a => a.name ≠ "logging") = true) :
    visit_Import st names = st := by
  induction names generalizing st with
  | nil => rfl
  | cons a rest ih =>
    rw [List.all_cons, Bool.and_eq_true] at h
    unfold visit_Import
    rw [List.foldl_cons, if_neg (by simpa using h.1)]
    exact ih st h.2

theorem visit_ImportFrom_clean (st : St) (mod : Option String)
    (names : List ImportAlias) (h : mod ≠ some "logging") :
    visit_ImportFrom st mod names = st := by
  unfold visit_ImportFrom
  rw [if_neg h]

mutual
theorem visitStmts_clean (stack : List Frame) (st : St) (h : cleanSt st) :
    (ss : List Stmt) → noLogImportStmts ss = true → visitStmts stack st ss = st
  | [], _ => rfl
  | s :: rest, hno => by
    have hp : noLogImportStmt s = true ∧ noLogImportStmts rest = true := by
      have := hno
      unfold noLogImportStmts at this
      rw [Bool.and_eq_true] at this
      exact this
    show visitStmts stack (visitStmt stack st s) rest = st
    rw [visitStmt_clean stack st h s hp.1]
    exact visitStmts_clean stack st h rest hp.2

theorem visitStmt_clean (stack : List Frame) (st : St) (h : cleanSt st) :
    (s : Stmt) → noLogImportStmt s = true → visitStmt stack st s = st
  | .importStmt _ names, hno => by
    show visit_Import st names = st
    exact visit_Import_clean st names (by
      have := hno
      unfold noLogImportStmt at this
      exact this)
  | .importFrom _ mod names, hno => by
    show visit_ImportFrom st mod names = st
    exact visit_ImportFrom_clean st mod names (by
      have := hno
      unfold noLogImportStmt at this
      simpa using this)
  | .assign _ targets value, _ => by
    show visitExpr (Frame.assignF targets :: stack)
      (visitExprs (Frame.assignF targets :: stack) st targets) value = st
    rw [visitExprs_clean (Frame.assignF targets :: stack) st h targets]
    exact visitExpr_clean (Frame.assignF targets :: stack) st h value
  | .exprStmt _ value, _ => by
    show visitExpr (Frame.other :: stack) st value = st
    exact visitExpr_clean (Frame.other :: stack) st h value
  | .functionDef _ _ body, hno => by
    show visitStmts (Frame.funcDef :: stack) st body = st
    exact visitStmts_clean (Frame.funcDef :: stack) st h body (by
      have := hno
      unfold noLogImportStmt at this
      exact this)
  | .asyncFunctionDef _ _ body, hno => by
    show visitStmts (Frame.funcDef :: stack) st body = st
    exact visitStmts_clean (Frame.funcDef :: stack) st h body (by
      have := hno
      unfold noLogImportStmt at this
      exact this)
  | .classDef _ _ body, hno => by
    show visitStmts (Frame.other :: stack) st body = st
    exact visitStmts_clean (Frame.other :: stack) st h body (by
      have := hno
      unfold noLogImportStmt at this
      exact this)
  | .tryStmt _ body handlers orelse finalbody, hno => by
    have hp := hno
    unfold noLogImportStmt at hp
    rw [Bool.and_eq_true, Bool.and_eq_true, Bool.and_eq_true] at hp
    obtain ⟨⟨⟨h1, h2⟩, h3⟩, h4⟩ := hp
    show visitStmts (Frame.other :: stack)
      (visitStmts (Frame.other :: stack)
        (visitHandlers (Frame.other :: stack)
          (visitStmts (Frame.other :: stack) st body) handlers) orelse)
      finalbody = st
    rw [visitStmts_clean (Frame.other :: stack) st h body h1,
      visitHandlers_clean (Frame.other :: stack) st h handlers h2,
      visitStmts_clean (Frame.other :: stack) st h orelse h3]
    exact visitStmts_clean (Frame.other :: stack) st h finalbody h4

theorem visitHandlers_clean (stack : List Frame) (st : St) (h : cleanSt st) :
    (hs : List Handler) → noLogImportHandlers hs = true →
      visitHandlers stack st hs = st
  | [], _ => rfl
  | .mk p ty nm body :: rest, hno => by
    have hp : noLogImportStmts body = true ∧ noLogImportHandlers rest = true := by
      have := hno
      unfold noLogImportHandlers at this
      rw [Bool.and_eq_true] at this
      exact this
    show visitHandlers stack (visitHandler stack st (.mk p ty nm body)) rest = st
    rw [visitHandler_clean stack st h (.mk p ty nm body) hp.1]
    exact visitHandlers_clean stack st h rest hp.2

theorem visitHandler_clean (stack : List Frame) (st : St) (h : cleanSt st) :
    (hd : Handler) → noLogImportStmts hd.body = true →
      visitHandler stack st hd = st
  | .mk _ ty nm body, hb => by
    cases ty with
    | none =>
      show visitStmts (Frame.handler nm :: stack) st body = st
      exact visitStmts_clean (Frame.handler nm :: stack) st h body hb
    | some e =>
      show visitStmts (Frame.handler nm :: stack)
        (visitExpr (Frame.handler nm :: stack) st e) body = st
      rw [visitExpr_clean (Frame.handler nm :: stack) st h e]
      exact visitStmts_clean (Frame.handler nm :: stack) st h body hb

theorem visitExprs_clean (stack : List Frame) (st : St) (h : cleanSt st) :
    (es : List Expr) → visitExprs stack st es = st
  | [] => rfl
  | e :: rest => by
    show visitExprs stack (visitExpr stack st e) rest = st
    rw [visitExpr_clean stack st h e]
    exact visitExprs_clean stack st h rest

theorem visitOptExprs_clean (stack : List Frame) (st : St) (h : cleanSt st) :
    (es : List (Option Expr)) → visitOptExprs stack st es = st
  | [] => rfl
  | e? :: rest => by
    cases e? with
    | none =>
      show visitOptExprs stack st rest = st
      exact visitOptExprs_clean stack st h rest
    | some e =>
      show visitOptExprs stack (visitExpr stack st e) rest = st
      rw [visitExpr_clean stack st h e]
      exact visitOptExprs_clean stack st h rest

theorem visitKeywords_clean (stack : List Frame) (st : St) (h : cleanSt st) :
    (ks : List Keyword) → visitKeywords stack st ks = st
  | [] => rfl
  | .mk p a v :: rest => by
    show visitKeywords stack (visitExpr (Frame.other :: stack) st v) rest = st
    rw [visitExpr_clean (Frame.other :: stack) st h v]
    exact visitKeywords_clean stack st h rest

theorem visitExpr_clean (stack : List Frame) (st : St) (h : cleanSt st) :
    (e : Expr) → visitExpr stack st e = st
  | .constant _ _ => rfl
  | .name _ _ => rfl
  | .attribute pos value attr => by
    show visitExpr (Frame.other :: stack)
      (visit_Attribute st pos value attr) value = st
    rw [visit_Attribute_clean st h pos value attr]
    exact visitExpr_clean (Frame.other :: stack) st h value
  | .call pos func args kws => by
    show visitKeywords (Frame.other :: stack)
      (visitExprs (Frame.other :: stack)
        (visitExpr (Frame.other :: stack)
          (applyCallChecks st (Frame.other :: stack) pos func args kws) func)
        args) kws = st
    rw [applyCallChecks_clean st h (Frame.other :: stack) pos func args kws,
      visitExpr_clean (Frame.other :: stack) st h func,
      visitExprs_clean (Frame.other :: stack) st h args]
    exact visitKeywords_clean (Frame.other :: stack) st h kws
  | .starred _ v => by
    show visitExpr (Frame.other :: stack) st v = st
    exact visitExpr_clean (Frame.other :: stack) st h v
  | .binOp _ l _ r => by
    show visitExpr (Frame.other :: stack)
      (visitExpr (Frame.other :: stack) st l) r = st
    rw [visitExpr_clean (Frame.other :: stack) st h l]
    exact visitExpr_clean (Frame.other :: stack) st h r
  | .joinedStr _ vals => by
    show visitExprs (Frame.other :: stack) st vals = st
    exact visitExprs_clean (Frame.other :: stack) st h vals
  | .dict _ keys vals => by
    show visitExprs (Frame.other :: stack)
      (visitOptExprs (Frame.other :: stack) st keys) vals = st
    rw [visitOptExprs_clean (Frame.other :: stack) st h keys]
    exact visitExprs_clean (Frame.other :: stack) st h vals
end

/-! ## Helpers for reasoning about `visit_Call_checks` -/

theorem codeErrs_singleton_keep {c : String} {p : Pos} {M : String}
    (h : codeOf M = c.data) : codeErrs c [mkErr p M] = [mkErr p M] :=
  codeErrs_keep fun e he => by rw [List.mem_singleton] at he; subst he; exact h

theorem codeErrs_singleton_drop {c : String} {p : Pos} {M : String}
    (h : codeOf M ≠ c.data) : codeErrs c [mkErr p M] = [] :=
  codeErrs_eq_nil fun e he => by rw [List.mem_singleton] at he; subst he; exact h

theorem visit_Call_checks_fst (ln lgn : Option String)
    (fi : List (String × String)) (stack' : List Frame) (pos : Pos)
    (func : Expr) (args : List Expr) (kws : List Keyword) :
    (visit_Call_checks ln lgn fi stack' pos func args kws).1 =
      seg001 ln fi stack' pos func ++ seg015 ln fi pos func ++
      (if getLoggerGuard ln fi func then seg002 args else []) ++
      (match batteryGuard ln (updatedLoggerName lgn (getLoggerGuard ln fi func)
          stack') func with
       | some attr => batteryErrs func attr pos args kws
           (current_except_handler stack')
       | Option.none => []) := rfl

theorem ne_getLogger_of_method {a : String}
    (h : logger_methods.contains a = true) : a ≠ "getLogger" :=
  fun heq => absurd (heq ▸ h) (by decide)

theorem getLoggerGuard_method (ln : Option String)
    (fi : List (String × String)) (fp np : Pos) (v attr : String)
    (h : logger_methods.contains attr = true) :
    getLoggerGuard ln fi (.attribute fp (.name np v) attr) = false := by
  unfold getLoggerGuard
  simp [ne_getLogger_of_method h]

theorem updatedLoggerName_false (lgn : Option String) (stack' : List Frame) :
    updatedLoggerName lgn false stack' = lgn := rfl

theorem batteryGuard_method (ln lgn : Option String) (fp np : Pos)
    (v attr : String) (hattr : logger_methods.contains attr = true)
    (hres : ln = some v ∨ lgn = some v) :
    batteryGuard ln lgn (.attribute fp (.name np v) attr) = some attr := by
  unfold batteryGuard
  rcases hres with rfl | rfl
  · simp [hattr]
    exact List.mem_of_elem_eq_true hattr
  · simp [hattr]
    exact List.mem_of_elem_eq_true hattr

theorem codeErrs_seg001 {c : String} (hc : c.data ≠ "LOG001".data)
    (ln : Option String) (fi : List (String × String)) (stack' : List Frame)
    (pos : Pos) (func : Expr) : codeErrs c (seg001 ln fi stack' pos func) = [] :=
  codeErrs_eq_nil fun e he => by
    rw [seg001_codes ln fi stack' pos func e he]; exact Ne.symm hc

theorem codeErrs_seg015 {c : String} (hc : c.data ≠ "LOG015".data)
    (ln : Option String) (fi : List (String × String)) (pos : Pos)
    (func : Expr) : codeErrs c (seg015 ln fi pos func) = [] :=
  codeErrs_eq_nil fun e he => by
    rw [seg015_codes ln fi pos func e he]; exact Ne.symm hc

theorem codeErrs_ifseg002 {c : String} (hc : c.data ≠ "LOG002".data)
    (g : Bool) (args : List Expr) :
    codeErrs c (if g then seg002 args else []) = [] := by
  split
  · exact codeErrs_eq_nil fun e he => by
      rw [seg002_codes args e he]; exact Ne.symm hc
  · rfl

theorem codeErrs_seg008 {c : String} (hc : c.data ≠ "LOG008".data)
    (attr : String) (pos : Pos) : codeErrs c (seg008 attr pos) = [] :=
  codeErrs_eq_nil fun e he => by
    rw [seg008_codes attr pos e he]; exact Ne.symm hc

theorem codeErrs_seg003 {c : String} (hc : c.data ≠ "LOG003".data)
    (kws : List Keyword) : codeErrs c (seg003 kws) = [] :=
  codeErrs_eq_nil fun e he => by
    rw [seg003_codes kws e he]; exact Ne.symm hc

theorem codeErrs_seg010 {c : String} (hc : c.data ≠ "LOG010".data)
    (attr : String) (args : List Expr) (excH : Option (Option String)) :
    codeErrs c (seg010 attr args excH) = [] :=
  codeErrs_eq_nil fun e he => by
    rw [seg010_codes attr args excH e he]; exact Ne.symm hc

theorem codeErrs_seg011 {c : String} (hc : c.data ≠ "LOG011".data)
    (msgArg? : Option (Expr × Bool)) : codeErrs c (seg011 msgArg?) = [] :=
  codeErrs_eq_nil fun e he => by
    rw [seg011_codes msgArg? e he]; exact Ne.symm hc

theorem codeErrs_segExcChain {c : String}
    (hc : c.data ∉ ["LOG004".data, "LOG006".data, "LOG007".data,
      "LOG005".data, "LOG014".data])
    (attr : String) (pos : Pos) (kws : List Keyword)
    (excH : Option (Option String)) :
    codeErrs c (segExcChain attr pos kws excH) = [] :=
  codeErrs_eq_nil fun e he hEq =>
    hc (hEq ▸ segExcChain_codes attr pos kws excH e he)

theorem codeErrs_seg01213 {c : String} (hc12 : c.data ≠ "LOG012".data)
    (hc13 : c.data ≠ "LOG013".data) (func : Expr) (args : List Expr)
    (msgArg? : Option (Expr × Bool)) :
    codeErrs c (seg01213 func args msgArg?) = [] :=
  codeErrs_eq_nil fun e he => by
    rcases seg01213_codes func args msgArg? e he with h | h <;>
      rw [h]
    · exact Ne.symm hc12
    · exact Ne.symm hc13

theorem codeErrs_battery {c : String}
    (hc : c.data ∉ ["LOG008".data, "LOG003".data, "LOG004".data,
      "LOG006".data, "LOG007".data, "LOG005".data, "LOG014".data,
      "LOG010".data, "LOG011".data, "LOG012".data, "LOG013".data])
    (func : Expr) (attr : String) (pos : Pos) (args : List Expr)
    (kws : List Keyword) (excH : Option (Option String)) :
    codeErrs c (batteryErrs func attr pos args kws excH) = [] :=
  codeErrs_eq_nil fun e he hEq =>
    hc (hEq ▸ batteryErrs_codes func attr pos args kws excH e he)

theorem codeErrs_batteryOpt {c : String}
    (hc : c.data ∉ ["LOG008".data, "LOG003".data, "LOG004".data,
      "LOG006".data, "LOG007".data, "LOG005".data, "LOG014".data,
      "LOG010".data, "LOG011".data, "LOG012".data, "LOG013".data])
    (g : Option String) (func : Expr) (pos : Pos) (args : List Expr)
    (kws : List Keyword) (excH : Option (Option String)) :
    codeErrs c (match g with
      | some attr => batteryErrs func attr pos args kws excH
      | Option.none => []) = [] := by
  cases g with
  | none => rfl
  | some attr => exact codeErrs_battery hc func attr pos args kws excH

theorem codeErrs_LOG014_segExcChain (attr : String) (pos : Pos)
    (kws : List Keyword) (excH : Option (Option String)) :
    codeErrs "LOG014" (segExcChain attr pos kws excH) =
      if attr ≠ "exception" ∧ excH = Option.none then
        (match findKw kws "exc_info" with
         | some kw => if constTruthy kw.value then [mkErr kw.pos LOG014] else []
         | Option.none => [])
      else [] := by
  unfold segExcChain
  by_cases h1 : attr = "exception"
  · have hrhs : ¬(attr ≠ "exception" ∧ excH = Option.none) := fun hh => hh.1 h1
    rw [if_pos h1, codeErrs_append, if_neg hrhs]
    have e1 : codeErrs "LOG014"
        (if excH = Option.none then [mkErr pos LOG004] else []) = [] := by
      split
      · exact @codeErrs_singleton_drop "LOG014" pos LOG004 (by decide)
      · rfl
    have e2 : codeErrs "LOG014"
        (match findKw kws "exc_info" with
         | some kw =>
           if constTruthy kw.value || nameMatchesHandler kw.value excH then
             [mkErr kw.pos LOG006]
           else if constFalsy kw.value then [mkErr kw.pos LOG007]
           else []
         | Option.none => []) = [] := by
      rcases hkw : findKw kws "exc_info" with _ | kw
      · rfl
      · show codeErrs "LOG014"
            (if constTruthy kw.value || nameMatchesHandler kw.value excH then
              [mkErr kw.pos LOG006]
            else if constFalsy kw.value then [mkErr kw.pos LOG007]
            else []) = []
        split
        · exact @codeErrs_singleton_drop "LOG014" kw.pos LOG006 (by decide)
        · split
          · exact @codeErrs_singleton_drop "LOG014" kw.pos LOG007 (by decide)
          · rfl
    rw [e1, e2]
    rfl
  · rw [if_neg h1]
    by_cases h3 : (attr = "error" && excH.isSome) = true
    · have h2 : ¬ excH = Option.none := by
        rw [Bool.and_eq_true] at h3
        intro he
        rw [he] at h3
        simp at h3
      have hrhs : ¬(attr ≠ "exception" ∧ excH = Option.none) :=
        fun hh => h2 hh.2
      rw [if_pos h3, if_neg hrhs]
      split
      · exact @codeErrs_singleton_drop "LOG014" pos LOG005 (by decide)
      · rfl
    · rw [if_neg h3]
      by_cases h2 : excH = Option.none
      · rw [if_pos h2, if_pos (And.intro h1 h2)]
        rcases hkw : findKw kws "exc_info" with _ | kw
        · rfl
        · show codeErrs "LOG014"
              (if constTruthy kw.value then [mkErr kw.pos LOG014] else []) =
            (if constTruthy kw.value then [mkErr kw.pos LOG014] else [])
          split
          · exact @codeErrs_singleton_keep "LOG014" kw.pos LOG014 (by decide)
          · rfl
      · have hrhs : ¬(attr ≠ "exception" ∧ excH = Option.none) :=
          fun hh => h2 hh.2
        rw [if_neg h2, if_neg hrhs]
        rfl

theorem codeErrs_LOG004_segExcChain (attr : String) (pos : Pos)
    (kws : List Keyword) (excH : Option (Option String)) :
    codeErrs "LOG004" (segExcChain attr pos kws excH) =
      if attr = "exception" ∧ excH = Option.none then [mkErr pos LOG004]
      else [] := by
  unfold segExcChain
  by_cases h1 : attr = "exception"
  · rw [if_pos h1, codeErrs_append]
    have e2 : codeErrs "LOG004"
        (match findKw kws "exc_info" with
         | some kw =>
           if constTruthy kw.value || nameMatchesHandler kw.value excH then
             [mkErr kw.pos LOG006]
           else if constFalsy kw.value then [mkErr kw.pos LOG007]
           else []
         | Option.none => []) = [] := by
      rcases hkw : findKw kws "exc_info" with _ | kw
      · rfl
      · show codeErrs "LOG004"
            (if constTruthy kw.value || nameMatchesHandler kw.value excH then
              [mkErr kw.pos LOG006]
            else if constFalsy kw.value then [mkErr kw.pos LOG007]
            else []) = []
        split
        · exact @codeErrs_singleton_drop "LOG004" kw.pos LOG006 (by decide)
        · split
          · exact @codeErrs_singleton_drop "LOG004" kw.pos LOG007 (by decide)
          · rfl
    rw [e2, List.append_nil]
    by_cases h2 : excH = Option.none
    · rw [if_pos h2, if_pos (And.intro h1 h2)]
      exact @codeErrs_singleton_keep "LOG004" pos LOG004 (by decide)
    · have hrhs : ¬(attr = "exception" ∧ excH = Option.none) :=
        fun hh => h2 hh.2
      rw [if_neg h2, if_neg hrhs]
      rfl
  · have hrhs : ¬(attr = "exception" ∧ excH = Option.none) :=
      fun hh => h1 hh.1
    rw [if_neg h1, if_neg hrhs]
    by_cases h3 : (attr = "error" && excH.isSome) = true
    · rw [if_pos h3]
      split
      · exact @codeErrs_singleton_drop "LOG004" pos LOG005 (by decide)
      · rfl
    · rw [if_neg h3]
      by_cases h2 : excH = Option.none
      · rw [if_pos h2]
        rcases hkw : findKw kws "exc_info" with _ | kw
        · rfl
        · show codeErrs "LOG004"
              (if constTruthy kw.value then [mkErr kw.pos LOG014] else []) = []
          split
          · exact @codeErrs_singleton_drop "LOG004" kw.pos LOG014 (by decide)
          · rfl
      · rw [if_neg h2]
        rfl

theorem seg010_handler_none (attr : String) (args : List Expr) :
    seg010 attr args Option.none = [] := by
  unfold seg010
  split
  · cases args with
    | nil => rfl
    | cons a rest => cases a <;> rfl
  · rfl

/-- For a rule code other than LOG001/LOG015/LOG002, only the battery can
contribute diagnostics to a `visit_Call` run. -/
theorem codeErrs_visit_Call {c : String} (h1 : c.data ≠ "LOG001".data)
    (h15 : c.data ≠ "LOG015".data) (h2 : c.data ≠ "LOG002".data)
    (ln lgn : Option String) (fi : List (String × String))
    (stack' : List Frame) (pos : Pos) (func : Expr) (args : List Expr)
    (kws : List Keyword) :
    codeErrs c (visit_Call_checks ln lgn fi stack' pos func args kws).1 =
      codeErrs c (match batteryGuard ln
          (updatedLoggerName lgn (getLoggerGuard ln fi func) stack') func with
        | some attr => batteryErrs func attr pos args kws
            (current_except_handler stack')
        | Option.none => []) := by
  rw [visit_Call_checks_fst, codeErrs_append, codeErrs_append, codeErrs_append,
    codeErrs_seg001 h1, codeErrs_seg015 h15, codeErrs_ifseg002 h2]
  simp

theorem codeErrs_battery_LOG004 (func : Expr) (attr : String) (pos : Pos)
    (args : List Expr) (kws : List Keyword) (excH : Option (Option String)) :
    codeErrs "LOG004" (batteryErrs func attr pos args kws excH) =
      if attr = "exception" ∧ excH = Option.none then [mkErr pos LOG004]
      else [] := by
  unfold batteryErrs
  rw [codeErrs_append, codeErrs_append, codeErrs_append, codeErrs_append,
    codeErrs_append,
    @codeErrs_seg008 "LOG004" (by decide) attr pos,
    @codeErrs_seg003 "LOG004" (by decide) kws,
    @codeErrs_seg010 "LOG004" (by decide) attr args excH,
    @codeErrs_seg011 "LOG004" (by decide) (resolveMsgArg attr args kws),
    @codeErrs_seg01213 "LOG004" (by decide) (by decide) func args
      (resolveMsgArg attr args kws),
    codeErrs_LOG004_segExcChain attr pos kws excH]
  simp

theorem codeErrs_battery_LOG014 (func : Expr) (attr : String) (pos : Pos)
    (args : List Expr) (kws : List Keyword) (excH : Option (Option String)) :
    codeErrs "LOG014" (batteryErrs func attr pos args kws excH) =
      if attr ≠ "exception" ∧ excH = Option.none then
        (match findKw kws "exc_info" with
         | some kw => if constTruthy kw.value then [mkErr kw.pos LOG014] else []
         | Option.none => [])
      else [] := by
  unfold batteryErrs
  rw [codeErrs_append, codeErrs_append, codeErrs_append, codeErrs_append,
    codeErrs_append,
    @codeErrs_seg008 "LOG014" (by decide) attr pos,
    @codeErrs_seg003 "LOG014" (by decide) kws,
    @codeErrs_seg010 "LOG014" (by decide) attr args excH,
    @codeErrs_seg011 "LOG014" (by decide) (resolveMsgArg attr args kws),
    @codeErrs_seg01213 "LOG014" (by decide) (by decide) func args
      (resolveMsgArg attr args kws),
    codeErrs_LOG014_segExcChain attr pos kws excH]
  simp

theorem codeErrs_battery_LOG010_none (func : Expr) (attr : String) (pos : Pos)
    (args : List Expr) (kws : List Keyword) :
    codeErrs "LOG010" (batteryErrs func attr pos args kws Option.none) = [] := by
  unfold batteryErrs
  rw [codeErrs_append, codeErrs_append, codeErrs_append, codeErrs_append,
    codeErrs_append,
    @codeErrs_seg008 "LOG010" (by decide) attr pos,
    @codeErrs_seg003 "LOG010" (by decide) kws,
    @codeErrs_seg011 "LOG010" (by decide) (resolveMsgArg attr args kws),
    @codeErrs_seg01213 "LOG010" (by decide) (by decide) func args
      (resolveMsgArg attr args kws),
    @codeErrs_segExcChain "LOG010" (by decide) attr pos kws Option.none,
    seg010_handler_none attr args]
  simp [codeErrs]

/-! ## Claims C2, C3, C8, C9, C10 -/

/-- C2 (amended): the direct-instantiation diagnostic LOG001 is emitted, at
the call's position, exactly when the constructor call resolves through the
module alias or an unaliased `Logger` from-import AND no function or
async-function definition encloses the call — i.e. module-level (and
class-body) constructor calls are the ones flagged, while calls inside
function bodies are not (the opposite of the claim as frozen). -/
theorem claim_C2 (ln lgn : Option String) (fi : List (String × String))
    (stack' : List Frame) (pos : Pos) (func : Expr) (args : List Expr)
    (kws : List Keyword) :
    codeErrs "LOG001" (visit_Call_checks ln lgn fi stack' pos func args kws).1 =
      if log001Guard ln fi func && !stack'.any Frame.isFuncDef then
        [mkErr pos LOG001]
      else [] := by
  rw [visit_Call_checks_fst, codeErrs_append, codeErrs_append, codeErrs_append,
    @codeErrs_seg015 "LOG001" (by decide) ln fi pos func,
    @codeErrs_ifseg002 "LOG001" (by decide) (getLoggerGuard ln fi func) args,
    @codeErrs_batteryOpt "LOG001" (by decide)]
  simp only [List.append_nil]
  unfold seg001 at_module_level
  split
  · exact @codeErrs_singleton_keep "LOG001" pos LOG001 (by decide)
  · rfl

/-- C2: the claim as frozen is false on the code — `import logging` followed
by a module-level `logging.Logger("x")` yields the LOG001 finding (which the
claim says should not appear), and the same call inside a function
definition yields nothing (where the claim says it should be flagged). -/
theorem claim_C2_counterexample :
    analyze exLoggerModuleLevel = [(2, 0, LOG001)] ∧
    analyze exLoggerInFunction = [] := by
  constructor <;> rfl

/-- C3 (amended): LOG014 is emitted, at the `exc_info` keyword's position,
exactly when a recognized logging call to a method other than `"exception"`
carries an `exc_info` keyword whose value is a truthy constant and no
exception handler encloses the call.  Contrary to the claim as frozen, an
`"error"` call outside a handler does produce LOG014 (the error-specific
branch only captures calls inside a handler), and any truthy constant — not
just the literal `True` — triggers it. -/
theorem claim_C3 (ln lgn : Option String) (fi : List (String × String))
    (stack' : List Frame) (pos fp np : Pos) (v attr : String)
    (args : List Expr) (kws : List Keyword)
    (hattr : logger_methods.contains attr = true)
    (hres : ln = some v ∨ lgn = some v) :
    codeErrs "LOG014" (visit_Call_checks ln lgn fi stack' pos
        (.attribute fp (.name np v) attr) args kws).1 =
      if attr ≠ "exception" ∧ current_except_handler stack' = Option.none then
        (match findKw kws "exc_info" with
         | some kw => if constTruthy kw.value then [mkErr kw.pos LOG014] else []
         | Option.none => [])
      else [] := by
  rw [codeErrs_visit_Call (by decide) (by decide) (by decide),
    getLoggerGuard_method ln fi fp np v attr hattr, updatedLoggerName_false,
    batteryGuard_method ln lgn fp np v attr hattr hres]
  exact codeErrs_battery_LOG014 (.attribute fp (.name np v) attr) attr pos
    args kws (current_except_handler stack')

/-- C3: the claim as frozen says an `error` call never produces LOG014; the
code emits LOG014 for `logger.error("Uh oh", exc_info=True)` outside any
exception handler. -/
theorem claim_C3_counterexample :
    analyze exErrorExcInfoTrue = [(3, 22, LOG014)] := by rfl

/-- C3 witness: `logging.info("Uh oh", exc_info=True)` at module level gets
LOG014 at the keyword's position. -/
theorem claim_C3_witness :
    codeErrs "LOG014" (visit_Call_checks (some "logging") Option.none []
      [Frame.other, Frame.other] ⟨2, 0⟩
      (.attribute ⟨2, 0⟩ (.name ⟨2, 0⟩ "logging") "info")
      [.constant ⟨2, 13⟩ (.str "Uh oh")]
      [.mk ⟨2, 22⟩ (some "exc_info") (.constant ⟨2, 31⟩ (.bool true))]).1 =
      [mkErr ⟨2, 22⟩ LOG014] := by
  rw [claim_C3 (some "logging") Option.none [] [Frame.other, Frame.other]
    ⟨2, 0⟩ ⟨2, 0⟩ ⟨2, 0⟩ "logging" "info"
    [.constant ⟨2, 13⟩ (.str "Uh oh")]
    [.mk ⟨2, 22⟩ (some "exc_info") (.constant ⟨2, 31⟩ (.bool true))]
    (by decide) (Or.inl rfl)]
  rfl

/-- C8: for any call whatsoever, LOG004 (exception() outside a handler) and
LOG010 (passing the caught exception) are mutually exclusive — LOG004
requires no enclosing handler while LOG010 requires one — and the scenario
`logger.exception(exc)` inside `except Exception as exc:` yields exactly the
LOG010 finding at the argument's position. -/
theorem claim_C8 :
    (∀ (ln lgn : Option String) (fi : List (String × String))
      (stack' : List Frame) (pos : Pos) (func : Expr) (args : List Expr)
      (kws : List Keyword),
      codeErrs "LOG004"
        (visit_Call_checks ln lgn fi stack' pos func args kws).1 = [] ∨
      codeErrs "LOG010"
        (visit_Call_checks ln lgn fi stack' pos func args kws).1 = []) ∧
    analyze exExceptionExc = [(6, 21, LOG010)] := by
  constructor
  · intro ln lgn fi stack' pos func args kws
    by_cases h2 : current_except_handler stack' = Option.none
    · right
      rw [codeErrs_visit_Call (by decide) (by decide) (by decide)]
      rcases hbat : batteryGuard ln
          (updatedLoggerName lgn (getLoggerGuard ln fi func) stack') func with
        _ | attr
      · rfl
      · show codeErrs "LOG010" (batteryErrs func attr pos args kws
          (current_except_handler stack')) = []
        rw [h2]
        exact codeErrs_battery_LOG010_none func attr pos args kws
    · left
      rw [codeErrs_visit_Call (by decide) (by decide) (by decide)]
      rcases hbat : batteryGuard ln
          (updatedLoggerName lgn (getLoggerGuard ln fi func) stack') func with
        _ | attr
      · rfl
      · show codeErrs "LOG004" (batteryErrs func attr pos args kws
          (current_except_handler stack')) = []
        rw [codeErrs_battery_LOG004]
        exact if_neg (fun hh => h2 hh.2)
  · rfl

/-- C9: the assertion at the head of `_check_msg_and_args` — that the call's
function is an attribute access — holds whenever the battery guard that
gates every call to the helper holds, so the helper never fails ("none"
models the assertion error); together with the totality of every check
function by construction, no exception escapes the battery. -/
theorem claim_C9 (ln lgn : Option String) (func : Expr) (args : List Expr)
    (msgPos : Pos) (msg : String) (attr : String)
    (h : batteryGuard ln lgn func = some attr) :
    (check_msg_and_args func args msgPos msg).isSome = true := by
  cases func
  all_goals first
    | rfl
    | exact Option.noConfusion h

/-- C9 witness: the guard holds for `logging.info(...)` with the module
alias bound, and the helper succeeds there. -/
theorem claim_C9_witness :
    (check_msg_and_args (.attribute ⟨1, 0⟩ (.name ⟨1, 0⟩ "logging") "info")
      [] ⟨1, 0⟩ "x").isSome = true :=
  claim_C9 (some "logging") Option.none
    (.attribute ⟨1, 0⟩ (.name ⟨1, 0⟩ "logging") "info") [] ⟨1, 0⟩ "x" "info"
    (by rfl)

theorem resolveMsgArg_kwarg (attr : String) (args : List Expr)
    (kws : List Keyword) (mk : Keyword)
    (hargs : args.length < (if attr = "log" then 2 else 1))
    (hkw : findKw kws "msg" = some mk) :
    resolveMsgArg attr args kws = some (mk.value, true) := by
  unfold resolveMsgArg
  by_cases hl : attr = "log"
  · subst hl
    simp at hargs
    have c1 : ¬ ("log" = "log" && args.length ≥ 2) = true := by
      simp
      omega
    have c2 : ¬ ("log" ≠ "log" && args.length ≥ 1) = true := by simp
    rw [if_neg c1, if_neg c2, hkw]
  · rw [if_neg hl] at hargs
    have hlen : args.length = 0 := by omega
    have c1 : ¬ (attr = "log" && args.length ≥ 2) = true := by simp [hl]
    have c2 : ¬ (attr ≠ "log" && args.length ≥ 1) = true := by simp [hlen]
    rw [if_neg c1, if_neg c2, hkw]

theorem seg01213_kwarg (func : Expr) (args : List Expr) (ma : Expr) :
    seg01213 func args (some (ma, true)) = [] := rfl

/-- C10: for a recognized logging call whose message arrives only through
the `msg` keyword (no positional message slot is filled), neither LOG012
nor LOG013 is ever emitted for that call — the placeholder-count and
dict-key checks are gated on a positionally-passed message. -/
theorem claim_C10 (ln lgn : Option String) (fi : List (String × String))
    (stack' : List Frame) (pos fp np : Pos) (v attr : String)
    (args : List Expr) (kws : List Keyword) (mk : Keyword)
    (hattr : logger_methods.contains attr = true)
    (hres : ln = some v ∨ lgn = some v)
    (hargs : args.length < (if attr = "log" then 2 else 1))
    (hkw : findKw kws "msg" = some mk) :
    codeErrs "LOG012" (visit_Call_checks ln lgn fi stack' pos
        (.attribute fp (.name np v) attr) args kws).1 = [] ∧
    codeErrs "LOG013" (visit_Call_checks ln lgn fi stack' pos
        (.attribute fp (.name np v) attr) args kws).1 = [] := by
  have hmsg := resolveMsgArg_kwarg attr args kws mk hargs hkw
  constructor
  · rw [codeErrs_visit_Call (by decide) (by decide) (by decide),
      getLoggerGuard_method ln fi fp np v attr hattr, updatedLoggerName_false,
      batteryGuard_method ln lgn fp np v attr hattr hres]
    show codeErrs "LOG012" (batteryErrs (.attribute fp (.name np v) attr)
      attr pos args kws (current_except_handler stack')) = []
    unfold batteryErrs
    rw [hmsg, codeErrs_append, codeErrs_append, codeErrs_append,
      codeErrs_append, codeErrs_append,
      @codeErrs_seg008 "LOG012" (by decide) attr pos,
      @codeErrs_seg003 "LOG012" (by decide) kws,
      @codeErrs_segExcChain "LOG012" (by decide) attr pos kws
        (current_except_handler stack'),
      @codeErrs_seg010 "LOG012" (by decide) attr args
        (current_except_handler stack'),
      @codeErrs_seg011 "LOG012" (by decide) (some (mk.value, true)),
      seg01213_kwarg]
    simp [codeErrs]
  · rw [codeErrs_visit_Call (by decide) (by decide) (by decide),
      getLoggerGuard_method ln fi fp np v attr hattr, updatedLoggerName_false,
      batteryGuard_method ln lgn fp np v attr hattr hres]
    show codeErrs "LOG013" (batteryErrs (.attribute fp (.name np v) attr)
      attr pos args kws (current_except_handler stack')) = []
    unfold batteryErrs
    rw [hmsg, codeErrs_append, codeErrs_append, codeErrs_append,
      codeErrs_append, codeErrs_append,
      @codeErrs_seg008 "LOG013" (by decide) attr pos,
      @codeErrs_seg003 "LOG013" (by decide) kws,
      @codeErrs_segExcChain "LOG013" (by decide) attr pos kws
        (current_except_handler stack'),
      @codeErrs_seg010 "LOG013" (by decide) attr args
        (current_except_handler stack'),
      @codeErrs_seg011 "LOG013" (by decide) (some (mk.value, true)),
      seg01213_kwarg]
    simp [codeErrs]

/-- C10 witness: `logging.info(msg="Blending %s")` — a placeholder with no
arguments, yet no LOG012/LOG013. -/
theorem claim_C10_witness :
    codeErrs "LOG012" (visit_Call_checks (some "logging") Option.none []
      [Frame.other, Frame.other] ⟨2, 0⟩
      (.attribute ⟨2, 0⟩ (.name ⟨2, 0⟩ "logging") "info") []
      [.mk ⟨2, 13⟩ (some "msg") (.constant ⟨2, 17⟩ (.str "Blending %s"))]).1
      = [] ∧
    codeErrs "LOG013" (visit_Call_checks (some "logging") Option.none []
      [Frame.other, Frame.other] ⟨2, 0⟩
      (.attribute ⟨2, 0⟩ (.name ⟨2, 0⟩ "logging") "info") []
      [.mk ⟨2, 13⟩ (some "msg") (.constant ⟨2, 17⟩ (.str "Blending %s"))]).1
      = [] :=
  claim_C10 (some "logging") Option.none [] [Frame.other, Frame.other]
    ⟨2, 0⟩ ⟨2, 0⟩ ⟨2, 0⟩ "logging" "info" []
    [.mk ⟨2, 13⟩ (some "msg") (.constant ⟨2, 17⟩ (.str "Blending %s"))]
    (.mk ⟨2, 13⟩ (some "msg") (.constant ⟨2, 17⟩ (.str "Blending %s")))
    (by decide) (Or.inl rfl) (by decide) (by rfl)

/-! ## Claims C4 and C5: the message/argument checks -/

theorem seg01213_attr (fp : Pos) (val : Expr) (attr : String)
    (args : List Expr) (ma : Expr) (msg : String)
    (hflat : flatten_str_chain ma = some msg) (hne : msg ≠ "")
    (hstar : args.any isStarredExpr = false) :
    seg01213 (.attribute fp val attr) args (some (ma, false)) =
      check_inner attr args ma.pos msg := by
  unfold seg01213
  show (match flatten_str_chain ma with
    | some m =>
      if m ≠ "" && !args.any isStarredExpr then
        (check_msg_and_args (.attribute fp val attr) args ma.pos m).getD []
      else []
    | Option.none => []) = check_inner attr args ma.pos msg
  rw [hflat]
  show (if msg ≠ "" && !args.any isStarredExpr then
      (check_msg_and_args (.attribute fp val attr) args ma.pos msg).getD []
    else []) = check_inner attr args ma.pos msg
  rw [hstar]
  have hcond : (msg ≠ "" && !false) = true := by simp [hne]
  rw [if_pos hcond]
  rfl

theorem seg01213_empty (func : Expr) (args : List Expr) (ma : Expr)
    (hflat : flatten_str_chain ma = some "") :
    seg01213 func args (some (ma, false)) = [] := by
  unfold seg01213
  show (match flatten_str_chain ma with
    | some m =>
      if m ≠ "" && !args.any isStarredExpr then
        (check_msg_and_args func args ma.pos m).getD []
      else []
    | Option.none => []) = []
  rw [hflat]
  show (if ("" : String) ≠ "" && !args.any isStarredExpr then
      (check_msg_and_args func args ma.pos "").getD []
    else []) = []
  have hcond : ¬ ((("" : String) ≠ "" && !args.any isStarredExpr) = true) := by
    simp
  rw [if_neg hcond]

theorem check_inner_not_applicable (attr : String) (args : List Expr)
    (msgPos : Pos) (msg : String)
    (hnodict : log013Applicable attr args msg = false) :
    check_inner attr args msgPos msg = modposErrs attr args msgPos msg := by
  unfold check_inner
  by_cases hlen : args.length = dictIdxOf attr + 1
  · rw [if_pos hlen]
    rcases hget : args.get? (dictIdxOf attr) with _ | a
    · rfl
    · cases a
      all_goals try rfl
      rename_i dpos keys vals
      · show (match dictKeyStrs keys with
          | some given =>
            if namedNames msg ≠ [] then
              log013Errs msgPos dpos (namedNames msg) given.dedup
            else modposErrs attr args msgPos msg
          | Option.none => modposErrs attr args msgPos msg) =
          modposErrs attr args msgPos msg
        rcases hkeys : dictKeyStrs keys with _ | given
        · rfl
        · have hnamed : namedNames msg = [] := by
            unfold log013Applicable at hnodict
            rw [hget] at hnodict
            have hnodict2 : ((decide (args.length = dictIdxOf attr + 1) &&
                (dictKeyStrs keys).isSome) &&
                decide (namedNames msg ≠ [])) = false := hnodict
            rw [hkeys] at hnodict2
            simp [hlen] at hnodict2
            exact hnodict2
          show (if namedNames msg ≠ [] then
              log013Errs msgPos dpos (namedNames msg) given.dedup
            else modposErrs attr args msgPos msg) =
            modposErrs attr args msgPos msg
          rw [if_neg (by simp [hnamed])]
  · rw [if_neg hlen]

theorem codeErrs_modposErrs (attr : String) (args : List Expr) (msgPos : Pos)
    (msg : String) :
    codeErrs "LOG012" (modposErrs attr args msgPos msg) =
      modposErrs attr args msgPos msg :=
  codeErrs_keep (modposErrs_codes attr args msgPos msg)

/-- C4 (amended): for a recognized logging call with a positionally-passed
message flattening to a literal and no starred argument, and to which the
named-placeholder/dict-literal branch does not apply, LOG012 is emitted at
the message's position exactly when the required-argument count (one per
printf placeholder plus one per `*` width and `.*` precision, `%%` counting
zero) is positive and differs from the supplied positional-argument count.
The frozen claim omitted the dict-branch proviso: when a sole trailing
dict literal with string keys meets named placeholders, the code returns
from the named-key branch first and LOG012 is suppressed even on a
positional-count mismatch (see the counterexample). -/
theorem claim_C4 (ln lgn : Option String) (fi : List (String × String))
    (stack' : List Frame) (pos fp np : Pos) (v attr : String)
    (args : List Expr) (kws : List Keyword) (ma : Expr) (msg : String)
    (hattr : logger_methods.contains attr = true)
    (hres : ln = some v ∨ lgn = some v)
    (hmsg : resolveMsgArg attr args kws = some (ma, false))
    (hflat : flatten_str_chain ma = some msg)
    (hstar : args.any isStarredExpr = false)
    (hnodict : log013Applicable attr args msg = false) :
    codeErrs "LOG012" (visit_Call_checks ln lgn fi stack' pos
        (.attribute fp (.name np v) attr) args kws).1 =
      if 0 < modposCount msg ∧
          (modposCount msg : Int) ≠ argCountOf attr args then
        [mkErr ma.pos (LOG012msg (modposCount msg)
          (if modposCount msg ≠ 1 then "s" else "") (argCountOf attr args)
          (if argCountOf attr args ≠ 1 then "s" else ""))]
      else [] := by
  rw [codeErrs_visit_Call (by decide) (by decide) (by decide),
    getLoggerGuard_method ln fi fp np v attr hattr, updatedLoggerName_false,
    batteryGuard_method ln lgn fp np v attr hattr hres]
  show codeErrs "LOG012" (batteryErrs (.attribute fp (.name np v) attr)
    attr pos args kws (current_except_handler stack')) = _
  unfold batteryErrs
  rw [hmsg, codeErrs_append, codeErrs_append, codeErrs_append,
    codeErrs_append, codeErrs_append,
    @codeErrs_seg008 "LOG012" (by decide) attr pos,
    @codeErrs_seg003 "LOG012" (by decide) kws,
    @codeErrs_segExcChain "LOG012" (by decide) attr pos kws
      (current_except_handler stack'),
    @codeErrs_seg010 "LOG012" (by decide) attr args
      (current_except_handler stack'),
    @codeErrs_seg011 "LOG012" (by decide) (some (ma, false))]
  simp only [List.nil_append]
  by_cases hne : msg = ""
  · subst hne
    rw [seg01213_empty (.attribute fp (.name np v) attr) args ma hflat]
    rw [if_neg (fun hh => absurd hh.1 (by decide))]
    rfl
  · rw [seg01213_attr fp (.name np v) attr args ma msg hflat hne hstar,
      check_inner_not_applicable attr args ma.pos msg hnodict,
      codeErrs_modposErrs]
    unfold modposErrs
    rfl

/-- C4: the claim as frozen is false — in
`logger.info("%s %s %(a)s", {"a": x})` the message needs two positional
arguments and one is supplied, yet the analysis emits nothing: the
named-key branch supersedes the positional-count comparison. -/
theorem claim_C4_counterexample :
    analyze exSuperseded = [] ∧ modposCount "%s %s %(a)s" = 2 ∧
      argCountOf "info" exSupersededArgs = 1 := by
  refine ⟨?_, ?_, ?_⟩ <;> rfl

/-- C4 witness: `logging.info("Blending %*d", fruit)` (required 2, supplied
1) fires LOG012 with the claim's counts, and
`logging.info("Blending 100%%")` does not fire. -/
theorem claim_C4_witness :
    codeErrs "LOG012" (visit_Call_checks (some "logging") Option.none []
      [Frame.other, Frame.other] ⟨2, 0⟩
      (.attribute ⟨2, 0⟩ (.name ⟨2, 0⟩ "logging") "info")
      [.constant ⟨2, 13⟩ (.str "Blending %*d"), .name ⟨2, 29⟩ "fruit"] []).1 =
      [mkErr ⟨2, 13⟩ (LOG012msg 2 "s" 1 "")] ∧
    codeErrs "LOG012" (visit_Call_checks (some "logging") Option.none []
      [Frame.other, Frame.other] ⟨2, 0⟩
      (.attribute ⟨2, 0⟩ (.name ⟨2, 0⟩ "logging") "info")
      [.constant ⟨2, 13⟩ (.str "Blending 100%%")] []).1 = [] := by
  constructor
  · rw [claim_C4 (some "logging") Option.none [] [Frame.other, Frame.other]
      ⟨2, 0⟩ ⟨2, 0⟩ ⟨2, 0⟩ "logging" "info"
      [.constant ⟨2, 13⟩ (.str "Blending %*d"), .name ⟨2, 29⟩ "fruit"] []
      (.constant ⟨2, 13⟩ (.str "Blending %*d")) "Blending %*d"
      (by decide) (Or.inl rfl) rfl rfl rfl (by rfl)]
    rfl
  · rw [claim_C4 (some "logging") Option.none [] [Frame.other, Frame.other]
      ⟨2, 0⟩ ⟨2, 0⟩ ⟨2, 0⟩ "logging" "info"
      [.constant ⟨2, 13⟩ (.str "Blending 100%%")] []
      (.constant ⟨2, 13⟩ (.str "Blending 100%%")) "Blending 100%%"
      (by decide) (Or.inl rfl) rfl rfl rfl (by rfl)]
    rfl

theorem check_inner_applicable (attr : String) (args : List Expr)
    (msgPos : Pos) (msg : String) (dpos : Pos) (keys : List (Option Expr))
    (vals : List Expr) (given : List String)
    (hlen : args.length = dictIdxOf attr + 1)
    (hget : args.get? (dictIdxOf attr) = some (.dict dpos keys vals))
    (hkeys : dictKeyStrs keys = some given)
    (hnamed : namedNames msg ≠ []) :
    check_inner attr args msgPos msg =
      log013Errs msgPos dpos (namedNames msg) given.dedup := by
  unfold check_inner
  rw [if_pos hlen, hget]
  show (match dictKeyStrs keys with
    | some g =>
      if namedNames msg ≠ [] then
        log013Errs msgPos dpos (namedNames msg) g.dedup
      else modposErrs attr args msgPos msg
    | Option.none => modposErrs attr args msgPos msg) =
    log013Errs msgPos dpos (namedNames msg) given.dedup
  rw [hkeys]
  show (if namedNames msg ≠ [] then
      log013Errs msgPos dpos (namedNames msg) given.dedup
    else modposErrs attr args msgPos msg) =
    log013Errs msgPos dpos (namedNames msg) given.dedup
  rw [if_pos hnamed]

theorem codeErrs_log013Errs (msgPos dictPos : Pos)
    (modnames given : List String) :
    codeErrs "LOG013" (log013Errs msgPos dictPos modnames given) =
      log013Errs msgPos dictPos modnames given :=
  codeErrs_keep (log013Errs_codes msgPos dictPos modnames given)

/-- C5: for a recognized logging call whose flattened positional message has
named printf placeholders and whose sole remaining positional argument is a
dict literal with all-literal-string keys, the LOG013 output is exactly the
two findings of `log013Errs`: one "missing" message at the message's
position when some referenced key is absent from the dict, and one
"unreferenced" message at the dict's position when some dict key is never
referenced — each at most once per call, pluralized by key count, with the
offending keys joined.  The scenarios: `"Blending %(fruit)s"` with `{}`
yields missing key `'fruit'`; with `{"fruit": x, "colour": "yellow"}`
yields unreferenced key `'colour'`; with `{"fruit": x}` yields nothing. -/
theorem claim_C5 :
    (∀ (ln lgn : Option String) (fi : List (String × String))
      (stack' : List Frame) (pos fp np : Pos) (v attr : String)
      (args : List Expr) (kws : List Keyword) (ma : Expr) (msg : String)
      (dpos : Pos) (keys : List (Option Expr)) (vals : List Expr)
      (given : List String),
      logger_methods.contains attr = true →
      (ln = some v ∨ lgn = some v) →
      resolveMsgArg attr args kws = some (ma, false) →
      flatten_str_chain ma = some msg →
      args.any isStarredExpr = false →
      args.length = dictIdxOf attr + 1 →
      args.get? (dictIdxOf attr) = some (.dict dpos keys vals) →
      dictKeyStrs keys = some given →
      namedNames msg ≠ [] →
      codeErrs "LOG013" (visit_Call_checks ln lgn fi stack' pos
          (.attribute fp (.name np v) attr) args kws).1 =
        log013Errs ma.pos dpos (namedNames msg) given.dedup) ∧
    analyze exNamedMissing = [(3, 12, LOG013msg "missing" "" "'fruit'")] ∧
    analyze exNamedUnreferenced =
      [(3, 34, LOG013msg "unreferenced" "" "'colour'")] ∧
    analyze exNamedExact = [] := by
  refine ⟨?_, rfl, rfl, rfl⟩
  intro ln lgn fi stack' pos fp np v attr args kws ma msg dpos keys vals given
    hattr hres hmsg hflat hstar hlen hget hkeys hnamed
  have hne : msg ≠ "" := by
    intro he
    subst he
    exact hnamed rfl
  rw [codeErrs_visit_Call (by decide) (by decide) (by decide),
    getLoggerGuard_method ln fi fp np v attr hattr, updatedLoggerName_false,
    batteryGuard_method ln lgn fp np v attr hattr hres]
  show codeErrs "LOG013" (batteryErrs (.attribute fp (.name np v) attr)
    attr pos args kws (current_except_handler stack')) = _
  unfold batteryErrs
  rw [hmsg, codeErrs_append, codeErrs_append, codeErrs_append,
    codeErrs_append, codeErrs_append,
    @codeErrs_seg008 "LOG013" (by decide) attr pos,
    @codeErrs_seg003 "LOG013" (by decide) kws,
    @codeErrs_segExcChain "LOG013" (by decide) attr pos kws
      (current_except_handler stack'),
    @codeErrs_seg010 "LOG013" (by decide) attr args
      (current_except_handler stack'),
    @codeErrs_seg011 "LOG013" (by decide) (some (ma, false)),
    seg01213_attr fp (.name np v) attr args ma msg hflat hne hstar,
    check_inner_applicable attr args ma.pos msg dpos keys vals given
      hlen hget hkeys hnamed,
    codeErrs_log013Errs]
  simp

/-- C5 witness: the general statement applied to
`logger.info("Blending %(fruit)s", {})` yields exactly the "missing key
'fruit'" finding. -/
theorem claim_C5_witness :
    codeErrs "LOG013" (visit_Call_checks Option.none (some "logger") []
      [Frame.other, Frame.other] ⟨3, 0⟩
      (.attribute ⟨3, 0⟩ (.name ⟨3, 0⟩ "logger") "info")
      [.constant ⟨3, 12⟩ (.str "Blending %(fruit)s"), .dict ⟨3, 34⟩ [] []]
      []).1 =
      log013Errs ⟨3, 12⟩ ⟨3, 34⟩ (namedNames "Blending %(fruit)s")
        ([] : List String).dedup :=
  claim_C5.1 Option.none (some "logger") [] [Frame.other, Frame.other]
    ⟨3, 0⟩ ⟨3, 0⟩ ⟨3, 0⟩ "logger" "info"
    [.constant ⟨3, 12⟩ (.str "Blending %(fruit)s"), .dict ⟨3, 34⟩ [] []] []
    (.constant ⟨3, 12⟩ (.str "Blending %(fruit)s")) "Blending %(fruit)s"
    ⟨3, 34⟩ [] [] []
    (by decide) (Or.inr rfl) rfl rfl rfl rfl rfl rfl (by decide)

/-! ## Claims C1, C6 and C7 -/

/-- C1: a tree without logging-related imports — no `import logging` alias
and no `from logging import ...` — produces an empty diagnostic list: the
logging-module name stays unset, the from-import table stays empty, the
logger binding stays unset, and no check in the battery can fire.  (The
claim's additional "no logging-related calls" hypothesis is not needed:
without the imports, no call resolves to a logging entity.) -/
theorem claim_C1 (m : Module) (h : noLogImportStmts m.body = true) :
    analyze m = [] := by
  unfold analyze visitModule
  rw [visitStmts_clean [Frame.other] initSt ⟨rfl, rfl, rfl⟩ m.body h]
  rfl

/-- C1 witness: a module with calls, a function and an exception handler but
no logging imports analyses to the empty list. -/
theorem claim_C1_witness :
    noLogImportStmts exNoLogging.body = true ∧ analyze exNoLogging = [] :=
  ⟨by rfl, claim_C1 exNoLogging (by rfl)⟩

/-- C6: `flatten_str_chain` returns the concatenated literal text exactly
when the expression is a single string literal or a chain of string
literals joined exclusively by the addition operator (`StrChain`), and
returns no value otherwise; with the spec's four examples — including the
bytes-literal failure and the implicit-concatenation case, where the parser
has already fused `("A" "B")` into the single literal `"AB"`. -/
theorem claim_C6 :
    (∀ (e : Expr) (s : String), flatten_str_chain e = some s ↔ StrChain e s) ∧
    flatten_str_chain (.constant ⟨1, 0⟩ (.str "A")) = some "A" ∧
    flatten_str_chain (.binOp ⟨1, 0⟩
      (.binOp ⟨1, 0⟩ (.constant ⟨1, 0⟩ (.str "A")) .add
        (.constant ⟨1, 6⟩ (.str "B"))) .add
      (.constant ⟨1, 12⟩ (.str "C"))) = some "ABC" ∧
    flatten_str_chain (.binOp ⟨1, 0⟩ (.constant ⟨1, 0⟩ (.str "A")) .add
      (.constant ⟨1, 6⟩ (.bytes 1))) = Option.none ∧
    flatten_str_chain (.binOp ⟨1, 0⟩ (.constant ⟨1, 0⟩ (.str "AB")) .add
      (.constant ⟨1, 9⟩ (.str "C"))) = some "ABC" := by
  refine ⟨fun e s => ⟨flatten_sound e s, flatten_complete⟩, ?_, ?_, ?_, ?_⟩
  all_goals rfl

/-- C6 witness: the characterisation applied at a single literal. -/
theorem claim_C6_witness : StrChain (.constant ⟨1, 0⟩ (.str "A")) "A" :=
  (claim_C6.1 (.constant ⟨1, 0⟩ (.str "A")) "A").mp rfl

/-- C7 (amended): in a `from logging import ...` statement, a symbol renamed
via `as` adds no entry to the from-import table — so no check resolved
through that table can fire for it — but, contrary to the frozen claim's
"emits nothing at the import", the deprecated-WARN diagnostic LOG009 is
still emitted at the alias's position even when `WARN` is renamed. -/
theorem claim_C7 :
    (∀ (st : St) (names : List ImportAlias),
      (∀ a ∈ names, a.asname ≠ Option.none) →
      (visit_ImportFrom st (some "logging") names).from_imports =
        st.from_imports) ∧
    (∀ (st : St) (ap : Pos) (nm w : String),
      (visit_ImportFrom st (some "logging") [⟨ap, nm, some w⟩]).errors =
        st.errors ++ (if nm = "WARN" then [mkErr ap LOG009] else [])) := by
  constructor
  · intro st names hall
    induction names generalizing st with
    | nil => rfl
    | cons a rest ih =>
      unfold visit_ImportFrom
      rw [if_pos rfl, List.foldl_cons]
      have hstep := ih (if a.name = "WARN" then
          { st with errors := st.errors ++ [mkErr a.pos LOG009] }
        else st) (fun b hb => hall b (List.mem_cons_of_mem a hb))
      unfold visit_ImportFrom at hstep
      rw [if_pos rfl] at hstep
      have hskip : (if a.asname = Option.none then
          { (if a.name = "WARN" then
              { st with errors := st.errors ++ [mkErr a.pos LOG009] }
            else st) with
            from_imports := (a.name, "logging") ::
              (if a.name = "WARN" then
                { st with errors := st.errors ++ [mkErr a.pos LOG009] }
              else st).from_imports }
        else (if a.name = "WARN" then
          { st with errors := st.errors ++ [mkErr a.pos LOG009] }
        else st)) = (if a.name = "WARN" then
          { st with errors := st.errors ++ [mkErr a.pos LOG009] }
        else st) :=
        if_neg (hall a (List.mem_cons_self a rest))
      rw [hskip, hstep]
      split <;> rfl
  · intro st ap nm w
    unfold visit_ImportFrom
    rw [if_pos rfl, List.foldl_cons, List.foldl_nil]
    have hskip : (some w = Option.none) = False := by simp
    split
    · rw [if_neg (by simp)]
    · rw [if_neg (by simp)]
      simp

/-- C7: the frozen claim says `from logging import WARN as whatev` emits
nothing at the import; the code emits LOG009 there (while still adding no
from-import table entry). -/
theorem claim_C7_counterexample :
    analyze exWarnAliased = [(1, 20, LOG009)] ∧
    (visitModule exWarnAliased).from_imports = [] := ⟨rfl, rfl⟩

/-- C7 witness: the amended statement applied to the renamed-WARN alias. -/
theorem claim_C7_witness :
    (visit_ImportFrom initSt (some "logging")
      [⟨⟨1, 20⟩, "WARN", some "whatev"⟩]).from_imports = [] ∧
    (visit_ImportFrom initSt (some "logging")
      [⟨⟨1, 20⟩, "WARN", some "whatev"⟩]).errors = [mkErr ⟨1, 20⟩ LOG009] := by
  constructor
  · exact claim_C7.1 initSt [⟨⟨1, 20⟩, "WARN", some "whatev"⟩]
      (by intro a ha; rw [List.mem_singleton] at ha; subst ha; simp)
  · have := claim_C7.2 initSt ⟨1, 20⟩ "WARN" "whatev"
    simpa using this

end FlakeLogging
